import Mathlib

/-!
A shallow embedding of the ecsy ECS runtime core (xr3ngine-archive/ecsy).

The main model follows `build/ecsy.module.js` (classes `Query`, `Entity`,
`ObjectPool`, `World` and the helpers `queryKey`, `generateUUID`, `Not`).
A second model, in namespace `EcsyEM`, follows the `EntityManager` variant
found in `unnamed/part_003` together with its `Entity.js` facade.

Modelling conventions, used throughout:
* A component type (a JS class) is identified by its `name` together with
  its `isSystemStateComponent` static flag; the source keys every map by
  `Component.name` and compares classes by reference, and registered
  classes are in bijection with their names.
* Component instances are opaque ids (`Nat`); their schema fields are never
  consulted by the operations the claims are about.  Calling
  `component.dispose()` is recorded in a trace field of the world.
* A JS object used as a string-keyed map is an association list kept in
  insertion order.  A key can be present with value `undefined` (assigning
  `undefined` creates the property); such an entry is stored as `none`.
* JS array methods `indexOf` (result `-1` when absent) and
  `splice(start, 1)` (a negative `start` counts from the end of the array,
  so `splice(-1, 1)` removes the last element) are modelled by `jsIndexOf`
  and `jsSpliceOne` below.
* `Math.random()`-driven data (uuids) is modelled by a fresh-value counter
  on the world; event dispatchers carry no listeners in the core itself, so
  a dispatcher is modelled by its `fired` counter.
-/

namespace Ecsy

/-- A component class, identified by its `name` (every map in the source is
keyed by `Component.name`) and its `isSystemStateComponent` flag. -/
structure CompType where
  name : String
  isSystemStateComponent : Bool
deriving DecidableEq

/-- An element of the array passed to a query: either a bare component
class, or the object `{ operator: "not", Component: C }` built by `Not(C)`
(`build/ecsy.module.js`, function `Not`). -/
inductive QueryArg where
  | pos : CompType → QueryArg
  | neg : CompType → QueryArg
deriving DecidableEq

/-- The name pushed for one query argument by `queryKey`: for an object
with `operator === "not"` the string `"!" + T.Component.name`, otherwise
`T.name`. -/
def argName : QueryArg → String
  | .pos T => T.name
  | .neg T => "!" ++ T.name

/-- Code-unit lexicographic comparison of two strings as character lists:
the order used by the default comparator of `Array.prototype.sort()` on
strings. -/
def charListLt : List Char → List Char → Bool
  | [], [] => false
  | [], _ :: _ => true
  | _ :: _, [] => false
  | c :: cs, d :: ds =>
    if c.val.toNat < d.val.toNat then true
    else if d.val.toNat < c.val.toNat then false
    else charListLt cs ds

/-- `a < b` for JS strings. -/
def strLt (a b : String) : Bool := charListLt a.data b.data

/-- Stable insertion of a string into a sorted list; `sortStrings` models
`Array.prototype.sort()` with the default (string, code-unit lexicographic)
comparator. -/
def insertSorted (s : String) : List String → List String
  | [] => [s]
  | t :: ts => if strLt s t then s :: t :: ts else t :: insertSorted s ts

/-- Models `names.sort()` on a JS string array. -/
def sortStrings : List String → List String
  | [] => []
  | s :: ss => insertSorted s (sortStrings ss)

/-- `queryKey` from `src/Utils.js` (also inlined in `build/ecsy.module.js`
lines 182-196): collect the names (with `"!"` for negations), sort them and
join with `"-"`. -/
def queryKey (Components : List QueryArg) : String :=
  String.intercalate "-" (sortStrings (Components.map argName))

/-- `Array.prototype.indexOf`: the first index of `x`, or `-1`. -/
def jsIndexOf [DecidableEq α] (l : List α) (x : α) : Int :=
  match l.findIdx? (fun y => decide (y = x)) with
  | some i => (i : Int)
  | none => -1

/-- `Array.prototype.splice(start, 1)`: a negative `start` counts from the
end of the array (clamped at 0), so `splice(-1, 1)` on a non-empty array
removes its last element. -/
def jsSpliceOne (l : List α) (start : Int) : List α :=
  let s : Nat := if start < 0 then (((l.length : Int) + start).toNat) else min start.toNat l.length
  l.take s ++ l.drop (s + 1)

/-- `l.indexOf x !== -1` (equivalently `~l.indexOf(x)` is truthy). -/
def hasElem [DecidableEq α] (l : List α) (x : α) : Bool :=
  decide (x ∈ l)

/-- A heap of mutable objects addressed by key: dereferencing. -/
def assocGet [DecidableEq α] (l : List (α × β)) (k : α) : Option β :=
  match l.find? (fun p => p.1 == k) with
  | some p => some p.2
  | none => none

/-- A heap of mutable objects addressed by key: in-place mutation (a no-op
when the key is absent). -/
def assocSet [DecidableEq α] (l : List (α × β)) (k : α) (v : β) : List (α × β) :=
  l.map (fun p => if p.1 == k then (p.1, v) else p)

theorem assocGet_cons [DecidableEq α] (p : α × β) (l : List (α × β)) (k : α) :
    assocGet (p :: l) k = if p.1 == k then some p.2 else assocGet l k := by
  by_cases h : (p.1 == k) = true <;> simp [assocGet, List.find?, h]

theorem assocSet_cons_hit [DecidableEq α] (p : α × β) (l : List (α × β)) (k : α) (v : β)
    (h : (p.1 == k) = true) : assocSet (p :: l) k v = (p.1, v) :: assocSet l k v := by
  have hp : p.1 = k := by simpa using h
  simp [assocSet, hp]

theorem assocSet_cons_miss [DecidableEq α] (p : α × β) (l : List (α × β)) (k : α) (v : β)
    (h : (p.1 == k) = false) : assocSet (p :: l) k v = p :: assocSet l k v := by
  have hp : ¬ p.1 = k := by simpa using h
  simp [assocSet, hp]

theorem assocGet_assocSet_self [DecidableEq α] (l : List (α × β)) (k : α) (v : β)
    (h : (assocGet l k).isSome) : assocGet (assocSet l k v) k = some v := by
  induction l with
  | nil => simp [assocGet] at h
  | cons p rest ih =>
    by_cases hk : (p.1 == k) = true
    · rw [assocSet_cons_hit p rest k v hk, assocGet_cons]
      simp [hk]
    · have hk0 : (p.1 == k) = false := by simpa using hk
      rw [assocGet_cons, hk0] at h
      simp only [Bool.false_eq_true, if_false] at h
      rw [assocSet_cons_miss p rest k v hk0, assocGet_cons, hk0]
      simp only [Bool.false_eq_true, if_false]
      exact ih h

theorem assocGet_assocSet_ne [DecidableEq α] (l : List (α × β)) (k k' : α) (v : β)
    (h : k' ≠ k) : assocGet (assocSet l k v) k' = assocGet l k' := by
  induction l with
  | nil => rfl
  | cons p rest ih =>
    by_cases hk : (p.1 == k) = true
    · have hh : p.1 = k := by simpa using hk
      have hne : (p.1 == k') = false := by simp [hh, Ne.symm h]
      rw [assocSet_cons_hit p rest k v hk, assocGet_cons, assocGet_cons]
      simp only [hne, Bool.false_eq_true, if_false]
      exact ih
    · have hk0 : (p.1 == k) = false := by simpa using hk
      rw [assocSet_cons_miss p rest k v hk0, assocGet_cons, assocGet_cons]
      by_cases hk2 : (p.1 == k') = true
      · simp [hk2]
      · simp [hk2, ih]

theorem assocGet_assocSet_isSome [DecidableEq α] (l : List (α × β)) (k k' : α) (v : β) :
    (assocGet (assocSet l k v) k').isSome = (assocGet l k').isSome := by
  induction l with
  | nil => rfl
  | cons p rest ih =>
    by_cases hk : (p.1 == k) = true
    · rw [assocSet_cons_hit p rest k v hk, assocGet_cons, assocGet_cons]
      by_cases hk2 : (p.1 == k') = true
      · simp [hk2]
      · simp [hk2, ih]
    · have hk0 : (p.1 == k) = false := by simpa using hk
      rw [assocSet_cons_miss p rest k v hk0, assocGet_cons, assocGet_cons]
      by_cases hk2 : (p.1 == k') = true
      · simp [hk2]
      · simp [hk2, ih]

/-- A JS object used as a map from component names to component instances.
An entry `(k, none)` is a key that is present but holds `undefined`
(assigning `undefined` to a property creates it). -/
abbrev InstMap := List (String × Option Nat)

namespace InstMap

/-- The value of the JS property read `m[k]`: `undefined` (here `none`)
both when the key is absent and when it holds `undefined`. -/
def read (m : InstMap) (k : String) : Option Nat :=
  match m.find? (fun p => p.1 == k) with
  | some p => p.2
  | none => none

/-- Truthiness of `m[k]`: component instances are objects (truthy), so the
read is truthy exactly when it yields an instance. -/
def truthy (m : InstMap) (k : String) : Bool :=
  (m.read k).isSome

/-- The JS assignment `m[k] = v`: overwrite in place if the key is present,
otherwise append (insertion order). -/
def set (m : InstMap) (k : String) (v : Option Nat) : InstMap :=
  if (m.find? (fun p => p.1 == k)).isSome then
    m.map (fun p => if p.1 == k then (p.1, v) else p)
  else
    m ++ [(k, v)]

/-- The JS statement `delete m[k]`. -/
def del (m : InstMap) (k : String) : InstMap :=
  m.filter (fun p => p.1 != k)

end InstMap

/-- The `Entity` class of `build/ecsy.module.js` (lines 352-593).  `id`
models object identity; `hasPool` models whether `_pool` was set (it is set
on every entity produced by an `ObjectPool`, and unset on an entity built
directly with `new Entity(world)`). -/
structure Entity where
  id : Nat
  uuid : String
  componentTypes : List CompType
  components : InstMap
  componentsToRemove : InstMap
  queries : List String
  componentTypesToRemove : List CompType
  alive : Bool
  numSystemStateComponents : Int
  hasPool : Bool
deriving DecidableEq

namespace Entity

/-- `Entity.hasRemovedComponent`. -/
def hasRemovedComponent (e : Entity) (C : CompType) : Bool :=
  hasElem e.componentTypesToRemove C

/-- `Entity.hasComponent(Component, includeRemoved)`; the second argument
is compared with `=== true`, and calls that omit it pass `false` here. -/
def hasComponent (e : Entity) (C : CompType) (includeRemoved : Bool) : Bool :=
  hasElem e.componentTypes C || (includeRemoved && e.hasRemovedComponent C)

/-- `Entity.hasAllComponents`. -/
def hasAllComponents (e : Entity) (Components : List CompType) : Bool :=
  Components.all (fun C => e.hasComponent C false)

/-- `Entity.hasAnyComponents`. -/
def hasAnyComponents (e : Entity) (Components : List CompType) : Bool :=
  Components.any (fun C => e.hasComponent C false)

/-- `Entity.getRemovedComponent`. -/
def getRemovedComponent (e : Entity) (C : CompType) : Option Nat :=
  e.componentsToRemove.read C.name

end Entity

/-- `Query.match(entity)` with the query's `Components` and `NotComponents`
lists passed explicitly:
`entity.hasAllComponents(Components) && !entity.hasAnyComponents(NotComponents)`. -/
def queryMatch (Components NotComponents : List CompType) (e : Entity) : Bool :=
  e.hasAllComponents Components && !(e.hasAnyComponents NotComponents)

/-- The `Query` class of `build/ecsy.module.js` (lines 221-335).  `qid`
models the object identity of the query (a fresh allocation per
construction); `fired` is the `fired` counter of its `EventDispatcher`. -/
structure Query where
  qid : Nat
  Components : List CompType
  NotComponents : List CompType
  entities : List Nat
  reactive : Bool
  key : String
  fired : Nat
deriving DecidableEq

/-- The thrown JS errors (and a fuel marker for the model's bounded
recursion, which no modelled execution reaches). -/
inductive JsError where
  /-- `new Error` thrown by the `Query` constructor when the positive
  component list is empty. -/
  | emptyQueryComponents
  /-- `new Error` thrown by `EntityManager.disposeEntity` when the entity
  is not in the manager's list. -/
  | entityNotInList
  /-- Model artifact: recursion fuel exhausted. -/
  | outOfFuel
deriving DecidableEq

deriving instance DecidableEq for Except

/-- The `World` class of `build/ecsy.module.js` (lines 645-942), restricted
to the state the modelled operations read or write.  Entities are held by
id in `entityData` (JS holds object references; `entities` and the other
lists hold the same references, here the ids).  `registeredComponents`
models the name-keyed registry `this.componentTypes`; `entityPoolFree` is
the free list of `this.entityPool`; `nextInstId`, `nextQid` and `nextUuidN`
model object allocation; `disposedInstances` records every component
instance on which `dispose()` was invoked, in order. -/
structure World where
  entities : List Nat
  entityData : List (Nat × Entity)
  entitiesByUUID : List (String × Nat)
  entitiesWithComponentsToRemove : List Nat
  entitiesToRemove : List Nat
  registeredComponents : List String
  componentCounts : List (String × Int)
  queries : List (String × Query)
  entityPoolFree : List Nat
  nextInstId : Nat
  nextQid : Nat
  nextUuidN : Nat
  disposedInstances : List Nat
deriving DecidableEq

namespace World

/-- Dereference an entity id (a JS object reference). -/
def getEnt (w : World) (eid : Nat) : Option Entity :=
  assocGet w.entityData eid

/-- Mutate the entity object behind `eid`. -/
def setEnt (w : World) (eid : Nat) (e : Entity) : World :=
  { w with entityData := assocSet w.entityData eid e }

/-- Read `this.queries[key]`. -/
def getQ (w : World) (k : String) : Option Query :=
  assocGet w.queries k

/-- Mutate the query object stored at `key` in the index. -/
def setQ (w : World) (k : String) (q : Query) : World :=
  { w with queries := assocSet w.queries k q }

/-- `componentCounts[name] += d`.  The source increments even names that
were never registered (producing `NaN`); the claims never touch counts of
unregistered names, so absent keys are left absent. -/
def bumpCount (w : World) (k : String) (d : Int) : World :=
  { w with componentCounts := w.componentCounts.map (fun p => if p.1 == k then (p.1, p.2 + d) else p) }

/-- The uuid produced by the next `generateUUID()` call, modelled by a
fresh-value counter (the source draws it from `Math.random()`). -/
def freshUuid (w : World) : String :=
  "UUID-" ++ toString w.nextUuidN

/-- Record `component.dispose()` on instance `c`. -/
def disposeInstance (w : World) (c : Nat) : World :=
  { w with disposedInstances := w.disposedInstances ++ [c] }

/-- `Query.prototype.addEntity` (build lines 264-272): push the query onto
the entity's back-reference list, push the entity onto the query's list,
dispatch `ENTITY_ADDED`.  The query is denoted by its index key `k`. -/
def queryAddEntity (w : World) (k : String) (eid : Nat) : World :=
  match w.getQ k with
  | none => w
  | some q =>
    let w :=
      match w.getEnt eid with
      | none => w
      | some e => w.setEnt eid { e with queries := e.queries ++ [k] }
    w.setQ k { q with entities := q.entities ++ [eid], fired := q.fired + 1 }

/-- `Query.prototype.removeEntity` (build lines 278-292): if the entity is
in the query's list, splice it out, splice the query out of
`entity.queries` (via `indexOf`, so a dangling back-reference state would
splice the last element), and dispatch `ENTITY_REMOVED`. -/
def queryRemoveEntity (w : World) (k : String) (eid : Nat) : World :=
  match w.getQ k with
  | none => w
  | some q =>
    let idx := jsIndexOf q.entities eid
    if idx == -1 then w
    else
      let w := w.setQ k { q with entities := jsSpliceOne q.entities idx, fired := q.fired + 1 }
      match w.getEnt eid with
      | none => w
      | some e => w.setEnt eid { e with queries := jsSpliceOne e.queries (jsIndexOf e.queries k) }

/-- The body of the `for (var queryName in this.queries)` loop of
`World.onComponentAdded` (build lines 773-800), run for one indexed query. -/
def onAddStep (eid : Nat) (C : CompType) (w : World) (k : String) : World :=
  match w.getQ k, w.getEnt eid with
  | some q, some e =>
    if hasElem q.NotComponents C && hasElem q.entities eid then
      w.queryRemoveEntity k eid
    else if !(hasElem q.Components C) || !(queryMatch q.Components q.NotComponents e)
        || hasElem q.entities eid then
      w
    else
      w.queryAddEntity k eid
  | _, _ => w

/-- `World.onComponentAdded(entity, Component)` (build lines 766-801):
bump the live count and walk every indexed query.  The loop iterates the
index keys (the loop body never adds or removes index keys). -/
def onComponentAdded (w : World) (eid : Nat) (C : CompType) : World :=
  let w := w.bumpCount C.name 1
  (w.queries.map (fun p => p.1)).foldl (onAddStep eid C) w

/-- The body of the query loop of `World.onRemoveComponent` (build lines
825-847), run for one indexed query. -/
def onRemoveStep (eid : Nat) (C : CompType) (w : World) (k : String) : World :=
  match w.getQ k, w.getEnt eid with
  | some q, some e =>
    if hasElem q.NotComponents C && !(hasElem q.entities eid)
        && queryMatch q.Components q.NotComponents e then
      w.queryAddEntity k eid
    else if hasElem q.Components C && hasElem q.entities eid
        && !(queryMatch q.Components q.NotComponents e) then
      w.queryRemoveEntity k eid
    else
      w
  | _, _ => w

/-- `World.onRemoveComponent(entity, Component)` (build lines 822-848). -/
def onRemoveComponent (w : World) (eid : Nat) (C : CompType) : World :=
  let w := w.bumpCount C.name (-1)
  (w.queries.map (fun p => p.1)).foldl (onRemoveStep eid C) w

/-- `World.queueComponentRemoval(entity)` (build lines 813-819): push the
entity if it is not already queued. -/
def queueComponentRemoval (w : World) (eid : Nat) : World :=
  if jsIndexOf w.entitiesWithComponentsToRemove eid == -1 then
    { w with entitiesWithComponentsToRemove := w.entitiesWithComponentsToRemove ++ [eid] }
  else w

/-- `World.queueEntityDisposal(entity)` (build lines 850-852). -/
def queueEntityDisposal (w : World) (eid : Nat) : World :=
  { w with entitiesToRemove := w.entitiesToRemove ++ [eid] }

/-- `World.onDisposeEntity(entity)` (build lines 854-862): for every
indexed query that the entity's back-reference list contains, call
`query.removeEntity(entity)`. -/
def onDisposeEntity (w : World) (eid : Nat) : World :=
  (w.queries.map (fun p => p.1)).foldl
    (fun w k =>
      match w.getEnt eid with
      | none => w
      | some e => if hasElem e.queries k then w.queryRemoveEntity k eid else w)
    w

/-- `World.onEntityDisposed(entity)` (build lines 864-876): return early
when the (freshly regenerated) uuid is not in the uuid index; otherwise
delete the uuid entry and splice the entity out of the entity list. -/
def onEntityDisposed (w : World) (eid : Nat) : World :=
  match w.getEnt eid with
  | none => w
  | some e =>
    if (w.entitiesByUUID.find? (fun p => p.1 == e.uuid)).isNone then w
    else
      let w := { w with entitiesByUUID := w.entitiesByUUID.filter (fun p => p.1 != e.uuid) }
      let idx := jsIndexOf w.entities eid
      if idx == -1 then w else { w with entities := jsSpliceOne w.entities idx }

end World

/-- The loop `for (let i = 0; i < this.queries.length; i++)
this.queries[i].removeEntity(this)` of `Entity.dispose` (build lines
560-562).  `removeEntity` splices the query out of `entity.queries`, so the
index advances past the shrinking live array exactly as in the source.  The
fuel argument only bounds the recursion; one more than the initial length
always suffices because every iteration increments `i` and never lengthens
the array. -/
def World.disposeQueriesLoop (eid : Nat) : Nat → Nat → World → World
  | _, 0, w => w
  | i, fuel + 1, w =>
    match w.getEnt eid with
    | none => w
    | some e =>
      if h : i < e.queries.length then
        World.disposeQueriesLoop eid (i + 1) fuel (w.queryRemoveEntity (e.queries.get ⟨i, h⟩) eid)
      else w

/-- `Entity.dispose(immediately)` from `build/ecsy.module.js` lines
557-592.  With `immediately` the source regenerates the uuid, sets
`alive = true`, walks the back-referenced queries, disposes and deletes
every live component, clears the pending map and all lists, releases the
entity to its pool and calls `world.onEntityDisposed` (which, looking up
the regenerated uuid, returns early).  Otherwise it sets `alive = false`
and queues the entity for the end-of-tick drain. -/
def World.dispose (w : World) (eid : Nat) (immediately : Bool) : World :=
  match w.getEnt eid with
  | none => w
  | some e0 =>
    let w := if e0.alive then w.onDisposeEntity eid else w
    if immediately then
      let e1 := (w.getEnt eid).getD e0
      let w := w.setEnt eid { e1 with uuid := w.freshUuid, alive := true }
      let w := { w with nextUuidN := w.nextUuidN + 1 }
      let qlen := ((w.getEnt eid).getD e1).queries.length
      let w := World.disposeQueriesLoop eid 0 (qlen + 1) w
      match w.getEnt eid with
      | none => w
      | some e2 =>
        let w := { w with disposedInstances :=
          w.disposedInstances ++ e2.components.filterMap (fun (p : String × Option Nat) => p.2) }
        let e3 := { e2 with components := [], componentsToRemove := [],
                            queries := [], componentTypes := [], componentTypesToRemove := [] }
        let w := w.setEnt eid e3
        let w := if e3.hasPool then { w with entityPoolFree := w.entityPoolFree ++ [eid] } else w
        w.onEntityDisposed eid
    else
      let e1 := (w.getEnt eid).getD e0
      let w := w.setEnt eid { e1 with alive := false }
      w.queueEntityDisposal eid

/-- `Entity.addComponent(Component, props)` from `build/ecsy.module.js`
lines 426-453.  On a duplicate attachment the source executes a bare
`return;`, i.e. yields `undefined` (`none`) without mutating anything.
Otherwise it pushes the type, bumps the system-state counter, acquires an
instance (from the registered pool, else `new Component(props)`; both paths
produce a fresh opaque instance here, field initialisation from `props`
being irrelevant to the claims), stores it in the live map, notifies the
world when the entity is alive, and returns the entity. -/
def World.addComponent (w : World) (eid : Nat) (C : CompType) : Option Nat × World :=
  match w.getEnt eid with
  | none => (none, w)
  | some e =>
    if hasElem e.componentTypes C then (none, w)
    else
      let e := { e with componentTypes := e.componentTypes ++ [C] }
      let e := if C.isSystemStateComponent then
          { e with numSystemStateComponents := e.numSystemStateComponents + 1 }
        else e
      let inst := w.nextInstId
      let w := { w with nextInstId := w.nextInstId + 1 }
      let e := { e with components := e.components.set C.name (some inst) }
      let w := w.setEnt eid e
      let w := if e.alive then w.onComponentAdded eid C else w
      (some eid, w)

/-- `Entity.removeComponent(Component, immediately)` from
`build/ecsy.module.js` lines 480-525, translated statement by statement.
Note two properties of the source preserved here: (i) when the component is
not pending, the live map entry is deleted and the type list is spliced at
`indexOf(Component)` even when that index is `-1` (which removes the *last*
attached type); (ii) `const component = this.components[componentName]` is
read *after* the deletion, so it is `undefined` on that path, and the
deferred branch stores `undefined` in the pending map.  The function
returns `true` unconditionally. -/
def World.removeComponent (w : World) (eid : Nat) (C : CompType) (immediately : Bool) :
    Bool × World :=
  match w.getEnt eid with
  | none => (true, w)
  | some e0 =>
    let name := C.name
    let w :=
      if !(e0.componentsToRemove.truthy name) then
        let e := { e0 with components := e0.components.del name }
        let e := { e with componentTypes := jsSpliceOne e.componentTypes (jsIndexOf e.componentTypes C) }
        let w := w.setEnt eid e
        if e.alive then w.onRemoveComponent eid C else w
      else w
    let e1 := (w.getEnt eid).getD e0
    let component := e1.components.read name
    let w :=
      if immediately then
        let w :=
          match component with
          | some c => w.disposeInstance c
          | none => w
        let e2 := (w.getEnt eid).getD e0
        if e2.componentsToRemove.truthy name then
          let e2 := { e2 with componentsToRemove := e2.componentsToRemove.del name }
          let idx := jsIndexOf e2.componentTypesToRemove C
          let e2 := if idx != -1 then
              { e2 with componentTypesToRemove := jsSpliceOne e2.componentTypesToRemove idx }
            else e2
          w.setEnt eid e2
        else w
      else
        if e1.alive then
          let e2 := { e1 with componentTypesToRemove := e1.componentTypesToRemove ++ [C],
                              componentsToRemove := e1.componentsToRemove.set name component }
          let w := w.setEnt eid e2
          w.queueComponentRemoval eid
        else w
    let w :=
      if C.isSystemStateComponent then
        match w.getEnt eid with
        | none => w
        | some e3 =>
          let e3 := { e3 with numSystemStateComponents := e3.numSystemStateComponents - 1 }
          let w := w.setEnt eid e3
          if e3.numSystemStateComponents == 0 && !e3.alive then w.dispose eid false else w
      else w
    (true, w)

/-- The `while` loop of `Entity.processRemovedComponents` (build lines
527-532): pop the last pending type and remove it immediately.  Each
iteration shortens `_componentTypesToRemove` by at least one, so fuel equal
to its initial length suffices. -/
def World.processLoop (eid : Nat) : Nat → World → World
  | 0, w => w
  | fuel + 1, w =>
    match w.getEnt eid with
    | none => w
    | some e =>
      match e.componentTypesToRemove.getLast? with
      | none => w
      | some C =>
        let w := w.setEnt eid { e with componentTypesToRemove := e.componentTypesToRemove.dropLast }
        let w := (w.removeComponent eid C true).2
        World.processLoop eid fuel w

/-- `Entity.processRemovedComponents()` (build lines 527-532). -/
def World.processRemovedComponents (w : World) (eid : Nat) : World :=
  World.processLoop eid
    (match w.getEnt eid with
     | some e => e.componentTypesToRemove.length
     | none => 0) w

/-- The positive half of the `Components.forEach` split in the `Query`
constructor (build lines 227-233): bare class references. -/
def splitPositives (Components : List QueryArg) : List CompType :=
  Components.filterMap (fun a => match a with | .pos T => some T | .neg _ => none)

/-- The negative half of the split: the `Not(...)` entries, unwrapped. -/
def splitNegatives (Components : List QueryArg) : List CompType :=
  Components.filterMap (fun a => match a with | .pos _ => none | .neg T => some T)

/-- The seeding loop of the `Query` constructor (build lines 246-254): walk
the current world entity list; every matching entity gets the new query
pushed onto its back-reference list (denoted by the query's key) and is
collected into the query's entity list, without dispatching events. -/
def seedQuery (k : String) (pos neg : List CompType) : List Nat → World → List Nat × World
  | [], w => ([], w)
  | eid :: rest, w =>
    match w.getEnt eid with
    | none => seedQuery k pos neg rest w
    | some e =>
      if queryMatch pos neg e then
        let w := w.setEnt eid { e with queries := e.queries ++ [k] }
        let (l, w) := seedQuery k pos neg rest w
        (eid :: l, w)
      else seedQuery k pos neg rest w

/-- The `Query` constructor (build lines 225-258): split the argument list,
throw when no positive component remains (the JS message is
`Can not create a query without components`, modulo contraction), then seed
from the current entity list. -/
def QueryNew (Components : List QueryArg) (w : World) : Except JsError (Query × World) :=
  let pos := splitPositives Components
  let neg := splitNegatives Components
  if pos.length == 0 then .error .emptyQueryComponents
  else
    let key := queryKey Components
    let (ents, w1) := seedQuery key pos neg w.entities w
    let q : Query := { qid := w1.nextQid, Components := pos, NotComponents := neg,
                       entities := ents, reactive := false, key := key, fired := 0 }
    .ok (q, { w1 with nextQid := w1.nextQid + 1 })

/-- `World.getQuery(Components)` (build lines 756-765): look the canonical
key up in the index; construct and register a new `Query` only on a miss.
A thrown constructor error propagates before the index assignment, so on an
error nothing is registered. -/
def getQuery (w : World) (Components : List QueryArg) : Except JsError (Query × World) :=
  match w.queries.find? (fun p => p.1 == queryKey Components) with
  | some p => .ok (p.2, w)
  | none =>
    match QueryNew Components w with
    | .error err => .error err
    | .ok (q, w1) => .ok (q, { w1 with queries := w1.queries ++ [(queryKey Components, q)] })

/-- The `ObjectPool` class of `build/ecsy.module.js` lines 595-643.  Items
are opaque ids; `nextItem` models `baseObject.clone()` allocating a fresh
object per call. -/
structure ObjectPool where
  freeList : List Nat
  count : Nat
  nextItem : Nat
deriving DecidableEq

/-- `Math.round(count * 0.2)` for a natural `count`: round half away from
zero, i.e. `⌊count / 5 + 1 / 2⌋ = ⌊(2 * count + 5) / 10⌋`.  (For the
integer counts that arise, the IEEE-754 value of `count * 0.2` is never
near a half-integer, so the float computation agrees with this rational
one.) -/
def jsRound02 (count : Nat) : Nat := (2 * count + 5) / 10

/-- `ObjectPool.expand(count)` (build lines 632-639): push `count` clones
of the base object onto the free list and grow the total size. -/
def ObjectPool.expand (p : ObjectPool) (n : Nat) : ObjectPool :=
  { freeList := p.freeList ++ List.range' p.nextItem n,
    count := p.count + n,
    nextItem := p.nextItem + n }

/-- `ObjectPool.acquire()` (build lines 607-615): when the free list is
empty, `expand(Math.round(this.count * 0.2) + 1)`; then `pop()` the last
free item. -/
def ObjectPool.acquire (p : ObjectPool) : Option Nat × ObjectPool :=
  let p := if p.freeList.length ≤ 0 then p.expand (jsRound02 p.count + 1) else p
  match p.freeList.getLast? with
  | some item => (some item, { p with freeList := p.freeList.dropLast })
  | none => (none, p)

/-- `ObjectPool.release(item)` (build lines 617-620): copy the base object
over the item (a no-op on opaque items) and push it on the free list. -/
def ObjectPool.release (p : ObjectPool) (item : Nat) : ObjectPool :=
  { p with freeList := p.freeList ++ [item] }

/-- One entry of the `_lut` table of `src/Utils.js` (lines 21-25):
`(i < 16 ? "0" : "") + i.toString(16)`, i.e. the two-character lowercase
hexadecimal rendering of a byte. -/
def lut (i : Nat) : String :=
  (if i < 16 then "0" else "") ++ String.mk (Nat.toDigits 16 i)

/-- `String.prototype.toUpperCase()` on the ASCII strings produced here. -/
def jsToUpper (s : String) : String :=
  String.mk (s.data.map Char.toUpper)

/-- `generateUUID()` from `src/Utils.js` lines 29-43, as a function of the
four 32-bit draws `d0..d3` (`Math.random() * 0xffffffff | 0`).  JS `|0`
produces a signed 32-bit value; `dk` here is its 32-bit two's-complement
bit pattern, for which the JS expressions `d >> k & 0xff` (arithmetic
shift, then mask) coincide with the unsigned `d >>> k &&& 0xff` used
below for every shift that appears. -/
def generateUUID (d0 d1 d2 d3 : Nat) : String :=
  jsToUpper
    (lut (d0 &&& 0xff) ++ lut (d0 >>> 8 &&& 0xff) ++ lut (d0 >>> 16 &&& 0xff) ++
      lut (d0 >>> 24 &&& 0xff) ++ "-" ++
     lut (d1 &&& 0xff) ++ lut (d1 >>> 8 &&& 0xff) ++ "-" ++
      lut ((d1 >>> 16 &&& 0x0f) ||| 0x40) ++ lut (d1 >>> 24 &&& 0xff) ++ "-" ++
     lut ((d2 &&& 0x3f) ||| 0x80) ++ lut (d2 >>> 8 &&& 0xff) ++ "-" ++
      lut (d2 >>> 16 &&& 0xff) ++ lut (d2 >>> 24 &&& 0xff) ++
     lut (d3 &&& 0xff) ++ lut (d3 >>> 8 &&& 0xff) ++ lut (d3 >>> 16 &&& 0xff) ++
      lut (d3 >>> 24 &&& 0xff))

end Ecsy

namespace EcsyEM

open Ecsy (CompType InstMap JsError jsIndexOf jsSpliceOne hasElem)

/-- The `Entity` of the `EntityManager`-based variant (`src/Entity.js`
facade over `unnamed/part_003`): fields `_ComponentTypes`, `_components`,
`_componentsToRemove`, `_ComponentTypesToRemove`, `alive` and
`_numStateComponents`. -/
structure EMEntity where
  id : Nat
  alive : Bool
  componentTypes : List CompType
  components : InstMap
  componentsToRemove : InstMap
  componentTypesToRemove : List CompType
  numStateComponents : Int
deriving DecidableEq

/-- Modelled from the spec: the `QueryManager` imported by
`unnamed/part_003` is not part of the sources, so a query of its index is
taken from spec section 3 - an inclusion list, an exclusion list and the
incrementally maintained entity list. -/
structure EMQuery where
  pos : List CompType
  neg : List CompType
  entities : List Nat
deriving DecidableEq

/-- The `EntityManager` of `unnamed/part_003`, restricted to the state the
modelled operations touch.  `releasedComponents` records the instances
handed back to the per-type component pools; `entityPoolFree` is the free
list of `_entityPool`; `fired` counts dispatched manager events. -/
structure EntityManager where
  entities : List Nat
  entityData : List (Nat × EMEntity)
  entitiesToRemove : List Nat
  entitiesWithComponentsToRemove : List Nat
  entityPoolFree : List Nat
  releasedComponents : List (Option Nat)
  componentCounts : List (String × Int)
  queries : List (String × EMQuery)
  fired : Nat
deriving DecidableEq

namespace EntityManager

/-- Dereference an entity id. -/
def getEnt (m : EntityManager) (eid : Nat) : Option EMEntity :=
  Ecsy.assocGet m.entityData eid

/-- Mutate the entity object behind `eid`. -/
def setEnt (m : EntityManager) (eid : Nat) (e : EMEntity) : EntityManager :=
  { m with entityData := Ecsy.assocSet m.entityData eid e }

/-- `ComponentManager.componentRemovedFromEntity`: decrement the live
count of the component name. -/
def bumpCount (m : EntityManager) (k : String) (d : Int) : EntityManager :=
  { m with componentCounts := m.componentCounts.map (fun p => if p.1 == k then (p.1, p.2 + d) else p) }

/-- `match(e)` over an `EMQuery`, per spec section 4.4:
`hasAllComponents(pos) && !hasAnyComponents(neg)` on the entity's current
type list. -/
def emMatch (q : EMQuery) (e : EMEntity) : Bool :=
  q.pos.all (fun C => hasElem e.componentTypes C) &&
    !(q.neg.any (fun C => hasElem e.componentTypes C))

/-- Modelled from the spec: `QueryManager.onEntityComponentRemoved`
(imported by `unnamed/part_003` but not among the sources) - incremental
maintenance on removal of component `T` from entity `e`, spec section 4.4:
for every indexed query, if `T` is negated, `e` absent and now matching,
add `e`; if `T` is positive, `e` present and no longer matching, remove
`e`. -/
def onEntityComponentRemoved (m : EntityManager) (eid : Nat) (C : CompType) : EntityManager :=
  match m.getEnt eid with
  | none => m
  | some e =>
    { m with queries := m.queries.map (fun p =>
        let q := p.2
        if hasElem q.neg C && !(hasElem q.entities eid) && emMatch q e then
          (p.1, { q with entities := q.entities ++ [eid] })
        else if hasElem q.pos C && hasElem q.entities eid && !(emMatch q e) then
          (p.1, { q with entities := q.entities.filter (fun x => x != eid) })
        else p) }

/-- Modelled from the spec: `QueryManager.onEntityRemoved` (not among the
sources) - on entity disposal the entity is removed from every query, spec
section 4.2. -/
def onEntityRemoved (m : EntityManager) (eid : Nat) : EntityManager :=
  { m with queries := m.queries.map (fun p =>
      (p.1, { p.2 with entities := p.2.entities.filter (fun x => x != eid) })) }

/-- `EntityManager._releaseEntity(entity, index)` (`unnamed/part_003`):
splice the entity list at the captured index, null the back-pointer (not
part of the modelled state) and, since `Entity.reset` exists, release the
entity to `_entityPool`. -/
def releaseEntity (m : EntityManager) (eid : Nat) (index : Int) : EntityManager :=
  { m with entities := jsSpliceOne m.entities index,
           entityPoolFree := m.entityPoolFree ++ [eid] }

end EntityManager

/-- JS truthiness of the optional `immediately` argument (`none` is an
omitted argument, i.e. `undefined`). -/
def immTruthy (imm : Option Bool) : Bool := imm == some true

mutual

/-- `EntityManager.entityRemoveComponent(entity, Component, immediately)`
from `unnamed/part_003`.  The immediate path is
`_entityRemoveComponentSync` inlined; the class comparison
`Component.__proto__ === SystemStateComponent` is the
`isSystemStateComponent` flag.  The JS return value (the entity, or
`undefined` on the early exit) is not part of the state and is omitted.
The first argument is recursion fuel (the source recursion terminates
because a re-entrant dispose only happens once per entity). -/
def entityRemoveComponent (fuel : Nat) (m : EntityManager) (eid : Nat) (C : CompType)
    (imm : Option Bool) : Except JsError EntityManager :=
  match fuel with
  | 0 => .error .outOfFuel
  | fuel + 1 =>
    match m.getEnt eid with
    | none => .ok m
    | some e =>
      let index := jsIndexOf e.componentTypes C
      if index == -1 then .ok m
      else
        let m := { m with fired := m.fired + 1 }
        let m :=
          if immTruthy imm then
            let e1 := { e with componentTypes := jsSpliceOne e.componentTypes index }
            let component := e1.components.read C.name
            let e1 := { e1 with components := e1.components.del C.name }
            let m := m.setEnt eid e1
            let m := { m with releasedComponents := m.releasedComponents ++ [component] }
            m.bumpCount C.name (-1)
          else
            let m :=
              if e.componentTypesToRemove.length == 0 then
                { m with entitiesWithComponentsToRemove := m.entitiesWithComponentsToRemove ++ [eid] }
              else m
            let e1 := { e with componentTypes := jsSpliceOne e.componentTypes index }
            let e1 := { e1 with componentTypesToRemove := e1.componentTypesToRemove ++ [C] }
            let component := e1.components.read C.name
            let e1 := { e1 with componentsToRemove := e1.componentsToRemove.set C.name component,
                                components := e1.components.del C.name }
            m.setEnt eid e1
        let m := m.onEntityComponentRemoved eid C
        if C.isSystemStateComponent then
          match m.getEnt eid with
          | none => .ok m
          | some e2 =>
            let e2 := { e2 with numStateComponents := e2.numStateComponents - 1 }
            let m := m.setEnt eid e2
            if e2.numStateComponents == 0 && !e2.alive then
              disposeEntity fuel m eid none
            else .ok m
        else .ok m

/-- `EntityManager.disposeEntity(entity, immediately)` from
`unnamed/part_003` lines 245-264: throw when the entity is not listed; mark
it not alive; only when it carries no system-state components dispatch
`ENTITY_REMOVED`, drop it from every query and either release it at once
(`immediately === true`) or queue it; finally remove all (non-system-state)
components. -/
def disposeEntity (fuel : Nat) (m : EntityManager) (eid : Nat) (immediately : Option Bool) :
    Except JsError EntityManager :=
  match fuel with
  | 0 => .error .outOfFuel
  | fuel + 1 =>
    let index := jsIndexOf m.entities eid
    if index == -1 then .error .entityNotInList
    else
      let m :=
        match m.getEnt eid with
        | some e => m.setEnt eid { e with alive := false }
        | none => m
      let m :=
        match m.getEnt eid with
        | some e =>
          if e.numStateComponents == 0 then
            let m := { m with fired := m.fired + 1 }
            let m := m.onEntityRemoved eid
            if immediately == some true then m.releaseEntity eid index
            else { m with entitiesToRemove := m.entitiesToRemove ++ [eid] }
          else m
        | none => m
      entityRemoveAllComponents fuel m eid immediately

/-- `EntityManager.entityRemoveAllComponents(entity, immediately)` from
`unnamed/part_003`: the loop
`for (let j = Components.length - 1; j >= 0; j--)` over the *live*
`_ComponentTypes` array, skipping system-state components. -/
def entityRemoveAllComponents (fuel : Nat) (m : EntityManager) (eid : Nat)
    (imm : Option Bool) : Except JsError EntityManager :=
  match fuel with
  | 0 => .error .outOfFuel
  | fuel + 1 =>
    match m.getEnt eid with
    | none => .ok m
    | some e =>
      match e.componentTypes.length with
      | 0 => .ok m
      | L + 1 => removeAllLoop fuel m eid imm L

/-- One downward pass of the remove-all loop: read `Components[j]` from the
live array (each non-skipped iteration removes exactly one element, so the
downward read is always in range), remove it unless it is a system-state
component, then continue at `j - 1`. -/
def removeAllLoop (fuel : Nat) (m : EntityManager) (eid : Nat) (imm : Option Bool)
    (j : Nat) : Except JsError EntityManager :=
  match fuel with
  | 0 => .error .outOfFuel
  | fuel + 1 =>
    let step : Except JsError EntityManager :=
      match m.getEnt eid with
      | none => .ok m
      | some e =>
        match e.componentTypes.get? j with
        | none => .ok m
        | some C =>
          if !C.isSystemStateComponent then entityRemoveComponent fuel m eid C imm
          else .ok m
    match step with
    | .error err => .error err
    | .ok m1 =>
      match j with
      | 0 => .ok m1
      | j + 1 => removeAllLoop fuel m1 eid imm j

end

end EcsyEM

namespace Ecsy

/-! ### Facts about `generateUUID` -/

/-- An uppercase hexadecimal digit. -/
def isUpperHexChar (c : Char) : Bool := decide (c ∈ "0123456789ABCDEF".data)

/-- The character contents of one `_lut` entry after `toUpperCase`. -/
def lutU (m : Nat) : List Char := (lut m).data.map Char.toUpper

theorem strData_append (a b : String) : (a ++ b).data = a.data ++ b.data := rfl

set_option maxRecDepth 8192 in
theorem lutU_facts : ∀ m, m < 256 →
    ((lutU m).length = 2 ∧ (lutU m).all isUpperHexChar = true) := by decide

set_option maxRecDepth 8192 in
theorem lutU_version : ∀ m, m < 256 → 64 ≤ m → m ≤ 79 →
    (lutU m).head? = some '4' := by decide

set_option maxRecDepth 8192 in
theorem lutU_variant : ∀ m, m < 256 → 128 ≤ m → m ≤ 191 →
    ((lutU m).head? = some '8' ∨ (lutU m).head? = some '9' ∨
     (lutU m).head? = some 'A' ∨ (lutU m).head? = some 'B') := by decide

theorem or64_eq : ∀ x, x < 16 → x ||| 64 = x + 64 := by decide

theorem or128_eq : ∀ x, x < 64 → x ||| 128 = x + 128 := by decide

theorem byteMask_lt (d : Nat) : d &&& 0xff < 256 :=
  Nat.lt_succ_of_le Nat.and_le_right

theorem versionByte_bounds (d : Nat) :
    64 ≤ (d &&& 0x0f) ||| 0x40 ∧ (d &&& 0x0f) ||| 0x40 ≤ 79 ∧ (d &&& 0x0f) ||| 0x40 < 256 := by
  have h : d &&& 0x0f < 16 := Nat.lt_succ_of_le Nat.and_le_right
  rw [show (0x40 : Nat) = 64 from rfl, or64_eq _ h]
  omega

theorem variantByte_bounds (d : Nat) :
    128 ≤ (d &&& 0x3f) ||| 0x80 ∧ (d &&& 0x3f) ||| 0x80 ≤ 191 ∧ (d &&& 0x3f) ||| 0x80 < 256 := by
  have h : d &&& 0x3f < 64 := Nat.lt_succ_of_le Nat.and_le_right
  rw [show (0x80 : Nat) = 128 from rfl, or128_eq _ h]
  omega

theorem lutU_byte_length (d : Nat) : (lutU (d &&& 0xff)).length = 2 :=
  (lutU_facts _ (byteMask_lt d)).1

theorem lutU_byte_hex (d : Nat) : (lutU (d &&& 0xff)).all isUpperHexChar = true :=
  (lutU_facts _ (byteMask_lt d)).2

/-- C9: every string returned by `generateUUID()` is exactly 36 characters
of uppercase hexadecimal digits and hyphens, grouped 8-4-4-4-12, with the
13th hex digit (the head of the third group) equal to `4` and the 17th hex
digit (the head of the fourth group) in `{8, 9, A, B}`, per RFC 4122 v4. -/
theorem generateUUID_rfc4122_v4 (d0 d1 d2 d3 : Nat) :
    ∃ g1 g2 g3 g4 g5 : List Char,
      (generateUUID d0 d1 d2 d3).data
          = g1 ++ '-' :: (g2 ++ '-' :: (g3 ++ '-' :: (g4 ++ '-' :: g5))) ∧
      (generateUUID d0 d1 d2 d3).length = 36 ∧
      g1.length = 8 ∧ g2.length = 4 ∧ g3.length = 4 ∧ g4.length = 4 ∧ g5.length = 12 ∧
      ((g1 ++ g2 ++ g3 ++ g4 ++ g5).all isUpperHexChar = true) ∧
      g3.head? = some '4' ∧
      (g4.head? = some '8' ∨ g4.head? = some '9' ∨ g4.head? = some 'A' ∨ g4.head? = some 'B') := by
  have hver := versionByte_bounds (d1 >>> 16)
  have hvar := variantByte_bounds d2
  have hlen : (generateUUID d0 d1 d2 d3).length = (generateUUID d0 d1 d2 d3).data.length :=
    (String.length_data _).symm
  have hdata : (generateUUID d0 d1 d2 d3).data
      = (lutU (d0 &&& 0xff) ++ lutU (d0 >>> 8 &&& 0xff) ++ lutU (d0 >>> 16 &&& 0xff) ++
          lutU (d0 >>> 24 &&& 0xff)) ++ '-' ::
        ((lutU (d1 &&& 0xff) ++ lutU (d1 >>> 8 &&& 0xff)) ++ '-' ::
        ((lutU ((d1 >>> 16 &&& 0x0f) ||| 0x40) ++ lutU (d1 >>> 24 &&& 0xff)) ++ '-' ::
        ((lutU ((d2 &&& 0x3f) ||| 0x80) ++ lutU (d2 >>> 8 &&& 0xff)) ++ '-' ::
         (lutU (d2 >>> 16 &&& 0xff) ++ lutU (d2 >>> 24 &&& 0xff) ++ lutU (d3 &&& 0xff) ++
          lutU (d3 >>> 8 &&& 0xff) ++ lutU (d3 >>> 16 &&& 0xff) ++ lutU (d3 >>> 24 &&& 0xff))))) := by
    simp only [generateUUID, jsToUpper, strData_append, List.map_append, lutU]
    simp [List.append_assoc]
  refine ⟨_, _, _, _, _, hdata, ?_, ?_, ?_, ?_, ?_, ?_, ?_, ?_, ?_⟩
  · rw [hlen, hdata]
    simp [List.length_append, lutU_byte_length, (lutU_facts _ hver.2.2).1,
      (lutU_facts _ hvar.2.2).1]
  · simp [List.length_append, lutU_byte_length]
  · simp [List.length_append, lutU_byte_length]
  · simp [List.length_append, lutU_byte_length, (lutU_facts _ hver.2.2).1]
  · simp [List.length_append, lutU_byte_length, (lutU_facts _ hvar.2.2).1]
  · simp [List.length_append, lutU_byte_length]
  · simp [List.all_append, lutU_byte_hex, (lutU_facts _ hver.2.2).2, (lutU_facts _ hvar.2.2).2]
  · rw [List.head?_append, lutU_version _ hver.2.2 hver.1 hver.2.1]
    rfl
  · rcases lutU_variant _ hvar.2.2 hvar.1 hvar.2.1 with h | h | h | h <;>
      simp [List.head?_append, h]

/-! ### Concrete fixtures used by witnesses and counterexamples -/

/-- A registered plain component class named `A`. -/
def cA : CompType := { name := "A", isSystemStateComponent := false }

/-- A registered plain component class named `B`. -/
def cB : CompType := { name := "B", isSystemStateComponent := false }

/-- A registered system-state component class named `S`. -/
def cS : CompType := { name := "S", isSystemStateComponent := true }

/-- A freshly constructed world with components `A` and `B` registered and
no entities (the `CustomEvent` notification and `performance.now()` of the
constructor have no modelled effect). -/
def emptyWorldAB : World :=
  { entities := [], entityData := [], entitiesByUUID := [],
    entitiesWithComponentsToRemove := [], entitiesToRemove := [],
    registeredComponents := ["A", "B"], componentCounts := [("A", 0), ("B", 0)],
    queries := [], entityPoolFree := [], nextInstId := 0, nextQid := 0,
    nextUuidN := 0, disposedInstances := [] }

/-! ### C5: pool growth -/

/-- C5 counterexample: a pool of total size 11 with an empty free list.
The code expands it by `Math.round(11 * 0.2) + 1 = 3` to total size 14; the
claimed formula `⌈0.2 * count⌉ + 1` gives `⌈2.2⌉ + 1 = 4`, total 15 (the
claim also says this pool "expands by 3", contradicting its own formula). -/
theorem objectPool_growth_counterexample :
    (ObjectPool.acquire { freeList := [], count := 11, nextItem := 11 }).2.count = 14 ∧
    (11 : Int) + (⌈(0.2 : ℚ) * 11⌉ + 1) = 15 ∧ (14 : Int) ≠ 15 := by
  refine ⟨by decide, ?_, by decide⟩
  have hc : ⌈(0.2 : ℚ) * 11⌉ = 3 := by norm_num [Int.ceil_eq_iff]
  rw [hc]
  decide

/-- C5 amended: when `acquire()` finds the free list empty, the pool
expands by exactly `Math.round(0.2 * count) + 1` items, i.e.
`⌊(2 * count + 5) / 10⌋ + 1` (round half up), where `count` is the total
size before the expansion - a pool of total size 11 expands by 3 - and the
acquisition then succeeds. -/
theorem objectPool_growth_round (p : ObjectPool) (h : p.freeList = []) :
    (ObjectPool.acquire p).2.count = p.count + (jsRound02 p.count + 1) ∧
    (ObjectPool.acquire p).1.isSome = true := by
  have hne : List.range' p.nextItem (jsRound02 p.count + 1) ≠ [] := by
    simp
  unfold ObjectPool.acquire ObjectPool.expand
  rw [h]
  simp only [List.length_nil, Nat.le_refl, if_pos, List.nil_append]
  cases hg : (List.range' p.nextItem (jsRound02 p.count + 1)).getLast? with
  | none => exact absurd (List.getLast?_eq_none_iff.mp hg) hne
  | some item => exact ⟨rfl, rfl⟩

/-- C5 witness for the amended theorem, at the pool of the claim's own
example. -/
theorem objectPool_growth_round_witness :
    ({ freeList := [], count := 11, nextItem := 11 } : ObjectPool).freeList = [] ∧
    (ObjectPool.acquire { freeList := [], count := 11, nextItem := 11 }).2.count
      = 11 + (jsRound02 11 + 1) :=
  ⟨rfl, (objectPool_growth_round _ rfl).1⟩

/-! ### C7: empty positive component list is fatal -/

/-- C7: constructing a `Query` whose positive component list is empty (for
example from arguments that are all `Not(...)` entries, or an empty list)
throws the invalid-argument error, and `getQuery` on such an argument list
(when its key is not already in the index) propagates the error before the
index assignment, so no query is created or registered. -/
theorem query_empty_positive_fatal (Components : List QueryArg) (w : World)
    (hpos : splitPositives Components = []) :
    QueryNew Components w = .error .emptyQueryComponents ∧
    ((w.queries.find? (fun p => p.1 == queryKey Components)).isNone →
      getQuery w Components = .error .emptyQueryComponents) := by
  constructor
  · simp [QueryNew, hpos]
  · intro hfind
    simp [getQuery, QueryNew, hpos, Option.isNone_iff_eq_none.mp hfind]

/-- C7 witness: the argument list `[Not(A)]` on a fresh world. -/
theorem query_empty_positive_fatal_witness :
    splitPositives [QueryArg.neg cA] = [] ∧
    ((emptyWorldAB.queries.find? (fun p => p.1 == queryKey [QueryArg.neg cA])).isNone) ∧
    QueryNew [QueryArg.neg cA] emptyWorldAB = .error .emptyQueryComponents ∧
    getQuery emptyWorldAB [QueryArg.neg cA] = .error .emptyQueryComponents :=
  ⟨by decide, by decide,
   (query_empty_positive_fatal [QueryArg.neg cA] emptyWorldAB (by decide)).1,
   (query_empty_positive_fatal [QueryArg.neg cA] emptyWorldAB (by decide)).2 (by decide)⟩

/-! ### C8: the Not-predicate partition -/

/-- A live entity (id 1) carrying component `A` (instance 7). -/
def entA : Entity :=
  { id := 1, uuid := "U1", componentTypes := [cA], components := [("A", some 7)],
    componentsToRemove := [], queries := [], componentTypesToRemove := [], alive := true,
    numSystemStateComponents := 0, hasPool := true }

/-- `emptyWorldAB` with the live entity `entA` added. -/
def entAWorld : World :=
  { emptyWorldAB with
      entities := [1], entityData := [(1, entA)],
      entitiesByUUID := [("U1", 1)], componentCounts := [("A", 1), ("B", 0)], nextInstId := 8 }

/-- C8 counterexample: on a world with `A` registered and a live entity,
the query `{A}` is obtainable but `getQuery([Not(A)])` throws the
empty-components error, so the pair of query instances whose entity lists
the claim says partition the active entities cannot even be formed. -/
theorem notQuery_pair_counterexample :
    (getQuery entAWorld [QueryArg.pos cA]).toOption.isSome = true ∧
    getQuery entAWorld [QueryArg.neg cA] = .error .emptyQueryComponents := by decide

/-- C8 amended: a query whose argument list is `[Not(C)]` cannot be
constructed (the constructor rejects an empty positive list), so the
partition holds at the predicate level instead: every entity satisfies
exactly one of the two match predicates `match([C], [])` (the query `{C}`)
and `match([], [C])` (the query `{Not(C)}` would have had). -/
theorem notPredicate_partition (w : World) (C : CompType) (e : Entity) :
    QueryNew [QueryArg.neg C] w = .error .emptyQueryComponents ∧
    queryMatch [C] [] e = !(queryMatch [] [C] e) ∧
    ((queryMatch [C] [] e = true ∧ queryMatch [] [C] e = false) ∨
     (queryMatch [C] [] e = false ∧ queryMatch [] [C] e = true)) := by
  refine ⟨by simp [QueryNew, splitPositives], ?_, ?_⟩ <;>
    cases h : e.hasComponent C false <;>
      simp [queryMatch, Entity.hasAllComponents, Entity.hasAnyComponents, h]

/-! ### C1: shared query instances per canonical key -/

theorem seedQuery_queries_eq (k : String) (pos neg : List CompType) :
    ∀ (ents : List Nat) (w : World), (seedQuery k pos neg ents w).2.queries = w.queries := by
  intro ents
  induction ents with
  | nil => intro w; rfl
  | cons eid rest ih =>
    intro w
    unfold seedQuery
    cases hge : w.getEnt eid with
    | none => simp [hge, ih]
    | some e =>
      simp only [hge]
      by_cases hm : queryMatch pos neg e = true
      · simp only [hm, if_pos]
        cases hs : seedQuery k pos neg rest (w.setEnt eid { e with queries := e.queries ++ [k] }) with
        | mk l w2 =>
          have hrec := ih (w.setEnt eid { e with queries := e.queries ++ [k] })
          rw [hs] at hrec
          simpa [World.setEnt] using hrec
      · simp [hm, ih]

theorem QueryNew_queries_eq (S : List QueryArg) (w : World) (q : Query) (w2 : World)
    (h : QueryNew S w = .ok (q, w2)) : w2.queries = w.queries := by
  unfold QueryNew at h
  by_cases hp : ((splitPositives S).length == 0) = true
  · simp [hp] at h
  · simp only [hp, Bool.false_eq_true, if_neg, reduceCtorEq] at h
    cases hs : seedQuery (queryKey S) (splitPositives S) (splitNegatives S) w.entities w with
    | mk l w1 =>
      rw [hs] at h
      injection h with h1
      injection h1 with hq hw
      rw [← hw]
      have hsq := seedQuery_queries_eq (queryKey S) (splitPositives S) (splitNegatives S) w.entities w
      rw [hs] at hsq
      exact hsq

/-- C1: when two query argument lists have the same canonical key,
`getQuery` returns the same `Query` instance for both - a successful call
`getQuery(S) = (q, w1)` makes the subsequent `getQuery(T)` with
`queryKey T = queryKey S` return exactly `q`, leaving the world `w1`
untouched (no second query is constructed). -/
theorem getQuery_key_shared (w : World) (S T : List QueryArg) (q : Query) (w1 : World)
    (hkey : queryKey S = queryKey T)
    (h : getQuery w S = Except.ok (q, w1)) :
    getQuery w1 T = Except.ok (q, w1) := by
  unfold getQuery at h ⊢
  rw [← hkey]
  cases hfind : w.queries.find? (fun p => p.1 == queryKey S) with
  | some p =>
    rw [hfind] at h
    injection h with h1
    injection h1 with hq hw
    rw [← hw, hfind]
    simp [hq]
  | none =>
    rw [hfind] at h
    cases hQN : QueryNew S w with
    | error err => rw [hQN] at h; exact absurd h (by simp)
    | ok pair =>
      obtain ⟨q0, w2⟩ := pair
      rw [hQN] at h
      injection h with h1
      injection h1 with hq hw
      have hq2 : w2.queries = w.queries := QueryNew_queries_eq S w q0 w2 hQN
      have hfind2 : (w2.queries ++ [(queryKey S, q0)]).find? (fun p => p.1 == queryKey S)
          = some (queryKey S, q0) := by
        rw [List.find?_append, hq2, hfind]
        simp
      rw [← hw]
      simp only [hfind2]
      simp [hq]

/-- The query built by `getQuery(entAWorld, [A, Not(B)])`: key `!B-A`,
seeded with entity 1. -/
def qAnotB : Query :=
  { qid := 0, Components := [cA], NotComponents := [cB], entities := [1],
    reactive := false, key := "!B-A", fired := 0 }

/-- The world produced by that call: entity 1 gained the back-reference and
the index holds the new query under its key. -/
def wAnotB : World :=
  { entAWorld with
      entityData := [(1, { entA with queries := ["!B-A"] })],
      queries := [("!B-A", qAnotB)], nextQid := 1 }

/-- C1 witness: `[A, Not(B)]` and `[Not(B), A]` share the key `!B-A`; after
the first call constructs `qAnotB`, the second returns that same instance
and leaves the world unchanged. -/
theorem getQuery_key_shared_witness :
    queryKey [QueryArg.pos cA, QueryArg.neg cB] = queryKey [QueryArg.neg cB, QueryArg.pos cA] ∧
    getQuery entAWorld [QueryArg.pos cA, QueryArg.neg cB] = Except.ok (qAnotB, wAnotB) ∧
    getQuery wAnotB [QueryArg.neg cB, QueryArg.pos cA] = Except.ok (qAnotB, wAnotB) :=
  ⟨by decide, by decide,
   getQuery_key_shared entAWorld [QueryArg.pos cA, QueryArg.neg cB]
     [QueryArg.neg cB, QueryArg.pos cA] qAnotB wAnotB (by decide) (by decide)⟩


/-! ### C2: the pending-removal map receives a stale read -/

/-- C2 (evaluation of the code at the failing input): entity 1 is live with
component `A` attached as instance 7 and nothing pending.  After the
deferred `removeComponent(A)` the pending map holds the key `A` with value
`undefined` - not instance 7, because the source reads
`this.components[componentName]` only *after* deleting that entry - so
`getRemovedComponent(A)` yields `undefined`, and the end-of-tick
`processRemovedComponents` drain disposes nothing (instance 7 leaks, and
the stale `undefined` pending entry survives the drain). -/
theorem removeComponent_stale_pending_eval :
    (entAWorld.removeComponent 1 cA false).1 = true ∧
    ((entAWorld.removeComponent 1 cA false).2.getEnt 1).map
        (fun e => (e.componentsToRemove, e.componentTypesToRemove, e.getRemovedComponent cA))
      = some ([("A", none)], [cA], none) ∧
    (entAWorld.removeComponent 1 cA false).2.entitiesWithComponentsToRemove = [1] ∧
    ((entAWorld.removeComponent 1 cA false).2.processRemovedComponents 1).disposedInstances = [] ∧
    (((entAWorld.removeComponent 1 cA false).2.processRemovedComponents 1).getEnt 1).map
        (fun e => e.componentsToRemove) = some [("A", none)] := by
  decide

/-! ### C3: removing an absent component is not a no-op -/

/-- C3 (evaluation of the code at the failing input): entity 1 is live with
only `A` attached; `B` is neither attached nor pending.  The claim says
`removeComponent(B, true)` returns `false` and changes nothing; the build
source has no guard, returns `true`, and - because
`componentTypes.splice(indexOf(B), 1)` runs with index `-1` - removes the
*last* attached type `A` from the type list (while `A`'s instance stays in
the live map). -/
theorem removeComponent_absent_eval :
    (entAWorld.removeComponent 1 cB true).1 = true ∧
    ((entAWorld.removeComponent 1 cB true).2.getEnt 1).map
        (fun e => (e.componentTypes, e.components)) = some ([], [("A", some 7)]) := by
  decide

/-! ### C6: the return value of addComponent -/

/-- C6 counterexample: on an entity that already has `A` attached,
`addComponent(A)` executes the bare `return;` of the duplicate guard and
yields `undefined` (`none`), not the entity - the claim says the entity is
returned "including the case where C is already attached". -/
theorem addComponent_duplicate_counterexample :
    (entAWorld.addComponent 1 cA).1 = none ∧
    (entAWorld.addComponent 1 cA).2 = entAWorld := by decide

/-- C6 amended: `addComponent` returns the entity for chaining whenever the
component was not yet attached; when it is already attached the call is a
silent idempotent no-op that returns `undefined` rather than the entity. -/
theorem addComponent_return_value (w : World) (eid : Nat) (e : Entity) (C : CompType)
    (h : w.getEnt eid = some e) :
    (C ∈ e.componentTypes → w.addComponent eid C = (none, w)) ∧
    (C ∉ e.componentTypes → (w.addComponent eid C).1 = some eid) := by
  constructor
  · intro hmem
    unfold World.addComponent
    rw [h]
    simp [hasElem, hmem]
  · intro hmem
    unfold World.addComponent
    rw [h]
    simp [hasElem, hmem]

/-- C6 witness: duplicate attachment of `A` is a no-op returning
`undefined`; fresh attachment of `B` returns the entity. -/
theorem addComponent_return_value_witness :
    entAWorld.getEnt 1 = some entA ∧
    (cA ∈ entA.componentTypes ∧ entAWorld.addComponent 1 cA = (none, entAWorld)) ∧
    (cB ∉ entA.componentTypes ∧ (entAWorld.addComponent 1 cB).1 = some 1) :=
  ⟨by decide,
   ⟨by decide, (addComponent_return_value entAWorld 1 entA cA (by decide)).1 (by decide)⟩,
   ⟨by decide, (addComponent_return_value entAWorld 1 entA cB (by decide)).2 (by decide)⟩⟩

end Ecsy

namespace EcsyEM

open Ecsy (CompType assocGet assocSet assocGet_assocSet_self assocGet_assocSet_ne
  assocGet_assocSet_isSome jsIndexOf jsSpliceOne cS)

/-! ### C4: the system-state ghost rule -/

/-- A ghost entity: disposal was requested (`alive = false`) while it still
carried the system-state component `S` (instance 5), which is now its last
component. -/
def ghostEnt : EMEntity :=
  { id := 1, alive := false, componentTypes := [cS], components := [("S", some 5)],
    componentsToRemove := [], componentTypesToRemove := [], numStateComponents := 1 }

/-- A manager holding only the ghost entity. -/
def ghostMgr : EntityManager :=
  { entities := [1], entityData := [(1, ghostEnt)], entitiesToRemove := [],
    entitiesWithComponentsToRemove := [], entityPoolFree := [], releasedComponents := [],
    componentCounts := [("S", 1)], queries := [], fired := 0 }

/-- The state that decides release and queueing of entities, plus every
entity's lifecycle fields - the frame that non-system-state component
removal must preserve. -/
def sameFrame (m m' : EntityManager) : Prop :=
  m'.entities = m.entities ∧ m'.entitiesToRemove = m.entitiesToRemove ∧
  m'.entityPoolFree = m.entityPoolFree ∧
  ∀ i, (m'.getEnt i).map (fun e => (e.alive, e.numStateComponents))
      = (m.getEnt i).map (fun e => (e.alive, e.numStateComponents))

theorem sameFrame_refl (m : EntityManager) : sameFrame m m := ⟨rfl, rfl, rfl, fun _ => rfl⟩

theorem sameFrame_trans {a b c : EntityManager} (h1 : sameFrame a b) (h2 : sameFrame b c) :
    sameFrame a c :=
  ⟨h2.1.trans h1.1, h2.2.1.trans h1.2.1, h2.2.2.1.trans h1.2.2.1,
   fun i => (h2.2.2.2 i).trans (h1.2.2.2 i)⟩

theorem sameFrame_onECR (m : EntityManager) (eid : Nat) (C : CompType) :
    sameFrame m (m.onEntityComponentRemoved eid C) := by
  unfold EntityManager.onEntityComponentRemoved
  cases m.getEnt eid with
  | none => exact sameFrame_refl m
  | some e => exact ⟨rfl, rfl, rfl, fun i => rfl⟩

/-- Removing a component that is not a system-state component never touches
the entity list, the deferred-disposal queue, the entity pool, or any
entity's `alive` / `_numStateComponents`. -/
theorem removeComponent_nonstate_frame (fuel : Nat) (m : EntityManager) (eid : Nat)
    (C : CompType) (imm : Option Bool) (hC : C.isSystemStateComponent = false) :
    ∃ m', entityRemoveComponent (fuel + 1) m eid C imm = .ok m' ∧ sameFrame m m' := by
  unfold entityRemoveComponent
  cases hge : m.getEnt eid with
  | none => exact ⟨m, rfl, sameFrame_refl m⟩
  | some e =>
    simp only
    by_cases hidx : (jsIndexOf e.componentTypes C == -1) = true
    · simp only [hidx, if_true]
      exact ⟨m, rfl, sameFrame_refl m⟩
    · have hidx0 : (jsIndexOf e.componentTypes C == -1) = false := by
        simpa using hidx
      have hsome : (assocGet m.entityData eid).isSome = true := by
        unfold EntityManager.getEnt at hge
        rw [hge]
        rfl
      have hge2 : assocGet m.entityData eid = some e := hge
      simp only [hidx0, Bool.false_eq_true, if_false, hC,
        EntityManager.setEnt, EntityManager.bumpCount]
      by_cases himm : immTruthy imm = true
      · simp only [himm, if_true]
        refine ⟨_, rfl, sameFrame_trans ?_ (sameFrame_onECR _ _ _)⟩
        refine ⟨rfl, rfl, rfl, fun i => ?_⟩
        by_cases hi : i = eid
        · subst hi
          unfold EntityManager.getEnt
          rw [assocGet_assocSet_self _ _ _ hsome, hge2]
          rfl
        · unfold EntityManager.getEnt
          rw [assocGet_assocSet_ne m.entityData eid i _ hi]
      · simp only [himm, Bool.false_eq_true, if_false]
        by_cases hlen : (e.componentTypesToRemove.length == 0) = true
        · simp only [hlen, if_true]
          refine ⟨_, rfl, sameFrame_trans ?_ (sameFrame_onECR _ _ _)⟩
          refine ⟨rfl, rfl, rfl, fun i => ?_⟩
          by_cases hi : i = eid
          · subst hi
            unfold EntityManager.getEnt
            rw [assocGet_assocSet_self _ _ _ hsome, hge2]
            rfl
          · unfold EntityManager.getEnt
            rw [assocGet_assocSet_ne m.entityData eid i _ hi]
        · simp only [hlen, Bool.false_eq_true, if_false]
          refine ⟨_, rfl, sameFrame_trans ?_ (sameFrame_onECR _ _ _)⟩
          refine ⟨rfl, rfl, rfl, fun i => ?_⟩
          by_cases hi : i = eid
          · subst hi
            unfold EntityManager.getEnt
            rw [assocGet_assocSet_self _ _ _ hsome, hge2]
            rfl
          · unfold EntityManager.getEnt
            rw [assocGet_assocSet_ne m.entityData eid i _ hi]

theorem removeAllLoop_frame : ∀ (j fuel : Nat) (m : EntityManager) (eid : Nat)
    (imm : Option Bool), j + 2 ≤ fuel →
    ∃ m', removeAllLoop fuel m eid imm j = .ok m' ∧ sameFrame m m' := by
  intro j
  induction j with
  | zero =>
    intro fuel m eid imm hfuel
    obtain ⟨f, rfl⟩ : ∃ f, fuel = f + 1 := ⟨fuel - 1, by omega⟩
    obtain ⟨g, rfl⟩ : ∃ g, f = g + 1 := ⟨f - 1, by omega⟩
    unfold removeAllLoop
    cases hge : m.getEnt eid with
    | none => exact ⟨m, rfl, sameFrame_refl m⟩
    | some e =>
      simp only [hge]
      cases hCj : e.componentTypes.get? 0 with
      | none => exact ⟨m, rfl, sameFrame_refl m⟩
      | some C =>
        simp only
        by_cases hssc : C.isSystemStateComponent = true
        · simp only [hssc, Bool.not_true, Bool.false_eq_true, if_false]
          exact ⟨m, rfl, sameFrame_refl m⟩
        · have hC : C.isSystemStateComponent = false := by simpa using hssc
          obtain ⟨m1, heq, hframe⟩ := removeComponent_nonstate_frame g m eid C imm hC
          simp only [hC, Bool.not_false, if_true, heq]
          exact ⟨m1, rfl, hframe⟩
  | succ j ih =>
    intro fuel m eid imm hfuel
    obtain ⟨f, rfl⟩ : ∃ f, fuel = f + 1 := ⟨fuel - 1, by omega⟩
    unfold removeAllLoop
    have hstep : ∃ m1, (match m.getEnt eid with
        | none => Except.ok m
        | some e =>
          match e.componentTypes.get? (j + 1) with
          | none => Except.ok m
          | some C =>
            if !C.isSystemStateComponent then entityRemoveComponent f m eid C imm
            else Except.ok m) = .ok m1 ∧ sameFrame m m1 := by
      cases hge : m.getEnt eid with
      | none => exact ⟨m, rfl, sameFrame_refl m⟩
      | some e =>
        simp only
        cases hCj : e.componentTypes.get? (j + 1) with
        | none => exact ⟨m, rfl, sameFrame_refl m⟩
        | some C =>
          simp only
          by_cases hssc : C.isSystemStateComponent = true
          · simp only [hssc, Bool.not_true, Bool.false_eq_true, if_false]
            exact ⟨m, rfl, sameFrame_refl m⟩
          · have hC : C.isSystemStateComponent = false := by simpa using hssc
            obtain ⟨g, rfl⟩ : ∃ g, f = g + 1 := ⟨f - 1, by omega⟩
            obtain ⟨m1, heq, hframe⟩ := removeComponent_nonstate_frame g m eid C imm hC
            simp only [hC, Bool.not_false, if_true, heq]
            exact ⟨m1, rfl, hframe⟩
    obtain ⟨m1, heq, hframe⟩ := hstep
    rw [heq]
    obtain ⟨m2, heq2, hframe2⟩ := ih f m1 eid imm (by omega)
    exact ⟨m2, heq2, sameFrame_trans hframe hframe2⟩

theorem removeAll_frame (fuel : Nat) (m : EntityManager) (eid : Nat) (imm : Option Bool)
    (hf : ∀ e, m.getEnt eid = some e → e.componentTypes.length + 1 ≤ fuel) :
    ∃ m', entityRemoveAllComponents (fuel + 1) m eid imm = .ok m' ∧ sameFrame m m' := by
  unfold entityRemoveAllComponents
  cases hge : m.getEnt eid with
  | none => exact ⟨m, rfl, sameFrame_refl m⟩
  | some e =>
    simp only
    cases hL : e.componentTypes.length with
    | zero => exact ⟨m, rfl, sameFrame_refl m⟩
    | succ L =>
      have := hf e hge
      exact removeAllLoop_frame L fuel m eid imm (by omega)

/-- Part one of the ghost rule: a `disposeEntity` request on an entity with
a non-zero system-state counter leaves the entity list, the disposal queue
and the entity pool untouched, marks the entity not alive, and keeps its
counter. -/
theorem disposeEntity_ghost_persists (fuel : Nat) (m : EntityManager) (eid : Nat)
    (imm : Option Bool) (e : EMEntity)
    (hge : m.getEnt eid = some e)
    (hidx : (jsIndexOf m.entities eid == -1) = false)
    (hn : (e.numStateComponents == 0) = false)
    (hf : e.componentTypes.length + 2 ≤ fuel) :
    ∃ m', disposeEntity (fuel + 1) m eid imm = .ok m' ∧
      m'.entities = m.entities ∧ m'.entitiesToRemove = m.entitiesToRemove ∧
      m'.entityPoolFree = m.entityPoolFree ∧
      ∃ e', m'.getEnt eid = some e' ∧ e'.alive = false ∧
        e'.numStateComponents = e.numStateComponents := by
  have hsome : (assocGet m.entityData eid).isSome = true := by
    unfold EntityManager.getEnt at hge
    rw [hge]
    rfl
  have hge2 : assocGet m.entityData eid = some e := hge
  unfold disposeEntity
  simp only [hidx, Bool.false_eq_true, if_false, hge, hge2, EntityManager.setEnt,
    EntityManager.getEnt]
  rw [assocGet_assocSet_self _ _ _ hsome]
  simp only [hn, Bool.false_eq_true, if_false]
  obtain ⟨g, rfl⟩ : ∃ g, fuel = g + 1 := ⟨fuel - 1, by omega⟩
  obtain ⟨m2, heq2, hframe2⟩ := removeAll_frame g
      (m.setEnt eid { e with alive := false }) eid imm (by
        intro e2 hge3
        unfold EntityManager.getEnt EntityManager.setEnt at hge3
        rw [assocGet_assocSet_self _ _ _ hsome] at hge3
        injection hge3 with h3
        rw [← h3]
        show e.componentTypes.length + 1 ≤ g
        omega)
  have heq2a : entityRemoveAllComponents (g + 1)
      { m with entityData := assocSet m.entityData eid { e with alive := false } } eid imm
      = .ok m2 := heq2
  rw [heq2a]
  refine ⟨m2, rfl, ?_, ?_, ?_, ?_⟩
  · exact hframe2.1
  · exact hframe2.2.1
  · exact hframe2.2.2.1
  · have hmap := hframe2.2.2.2 eid
    have hget1 : ((m.setEnt eid { e with alive := false }).getEnt eid)
        = some { e with alive := false } := by
      unfold EntityManager.getEnt EntityManager.setEnt
      rw [assocGet_assocSet_self _ _ _ hsome]
    rw [hget1, Option.map_some'] at hmap
    obtain ⟨e', he', hfe⟩ := Option.map_eq_some'.mp hmap
    rw [Prod.mk.injEq] at hfe
    exact ⟨e', he', hfe.1, hfe.2⟩

/-- Part two of the ghost rule: removing the last system-state component of
a not-alive ghost entity (here its only remaining component) re-enters
disposal *without* the immediate flag - the entity stays in the entity
list, is queued on `entitiesToRemove`, and the entity pool is untouched. -/
theorem ghost_completion_deferred (fuel : Nat) (m : EntityManager) (eid : Nat) (S : CompType)
    (e : EMEntity)
    (hge : m.getEnt eid = some e)
    (hidx : (jsIndexOf m.entities eid == -1) = false)
    (hS : S.isSystemStateComponent = true)
    (hTy : e.componentTypes = [S])
    (halive : e.alive = false)
    (hn : e.numStateComponents = 1) :
    ∃ m', entityRemoveComponent (fuel + 3) m eid S (some true) = .ok m' ∧
      m'.entities = m.entities ∧
      m'.entitiesToRemove = m.entitiesToRemove ++ [eid] ∧
      m'.entityPoolFree = m.entityPoolFree := by
  have hsome : (assocGet m.entityData eid).isSome = true := by
    unfold EntityManager.getEnt at hge
    rw [hge]
    rfl
  have hge2 : assocGet m.entityData eid = some e := hge
  have hidx0 : jsIndexOf e.componentTypes S = 0 := by
    rw [hTy]
    simp [jsIndexOf]
  have hsp : jsSpliceOne e.componentTypes (0 : Int) = ([] : List CompType) := by
    rw [hTy]
    norm_num [jsSpliceOne]
  have hz : ((0 : Int) == -1) = false := by decide
  have hone : ((1 : Int) - 1 == 0) = true := by decide
  have hnone : ((none : Option Bool) == some true) = false := rfl
  have hsome1 : ∀ v, (assocGet (assocSet m.entityData eid v) eid).isSome = true := fun v => by
    rw [assocGet_assocSet_isSome]
    exact hsome
  have hsome2 : ∀ v w, (assocGet (assocSet (assocSet m.entityData eid v) eid w) eid).isSome = true :=
    fun v w => by
      rw [assocGet_assocSet_isSome, assocGet_assocSet_isSome]
      exact hsome
  have hsome3 : ∀ v w x,
      (assocGet (assocSet (assocSet (assocSet m.entityData eid v) eid w) eid x) eid).isSome
        = true :=
    fun v w x => by
      rw [assocGet_assocSet_isSome, assocGet_assocSet_isSome, assocGet_assocSet_isSome]
      exact hsome
  unfold entityRemoveComponent disposeEntity entityRemoveAllComponents
  repeat
    first
      | rw [assocGet_assocSet_self _ _ _ hsome]
      | rw [assocGet_assocSet_self _ _ _ (hsome1 _)]
      | rw [assocGet_assocSet_self _ _ _ (hsome2 _ _)]
      | rw [assocGet_assocSet_self _ _ _ (hsome3 _ _ _)]
      | simp only [hge, hge2, hidx0, hsp, hz, hS, halive, hn, hone, hnone, Bool.false_eq_true,
          if_false, if_true, List.length_nil,
          show immTruthy (some true) = true from rfl,
          EntityManager.getEnt, EntityManager.setEnt, EntityManager.bumpCount,
          EntityManager.onEntityComponentRemoved, EntityManager.onEntityRemoved,
          assocGet_assocSet_self, assocGet_assocSet_isSome, hsome, hidx,
          Bool.not_false, Bool.and_self, Bool.true_and, Bool.and_true]
  exact ⟨_, rfl, rfl, rfl, rfl⟩

/-- C4 counterexample: removing the ghost entity's last system-state
component triggers disposal, but not the claimed *immediate teardown* - the
entity is still in the manager's entity list, the entity pool is still
empty (nothing was released), and the entity was merely queued on
`entitiesToRemove` for the end-of-tick drain. -/
theorem ghost_completion_counterexample :
    ∃ m', entityRemoveComponent (100 + 3) ghostMgr 1 cS (some true) = .ok m' ∧
      m'.entities = [1] ∧ m'.entitiesToRemove = [1] ∧ m'.entityPoolFree = [] := by
  obtain ⟨m', h, h1, h2, h3⟩ := ghost_completion_deferred 100 ghostMgr 1 cS ghostEnt
    (by decide) (by decide) (by decide) (by decide) (by decide) (by decide)
  exact ⟨m', h, h1, by simpa using h2, h3⟩

/-- C4 amended: an entity whose system-state counter is non-zero when
disposal is requested is neither released to the entity pool nor removed
from (or even queued out of) the manager's entity list; it persists as a
not-alive ghost with its counter intact while its plain components are
removed.  When its last system-state component is then removed while it is
not alive, disposal proceeds *deferred* - `dispose()` is re-entered without
the immediate flag, so the entity is queued on `entitiesToRemove` for the
end-of-tick drain rather than being torn down immediately. -/
theorem systemState_ghost_rule :
    (∀ (fuel : Nat) (m : EntityManager) (eid : Nat) (imm : Option Bool) (e : EMEntity),
      m.getEnt eid = some e → (jsIndexOf m.entities eid == -1) = false →
      (e.numStateComponents == 0) = false → e.componentTypes.length + 2 ≤ fuel →
      ∃ m', disposeEntity (fuel + 1) m eid imm = .ok m' ∧
        m'.entities = m.entities ∧ m'.entitiesToRemove = m.entitiesToRemove ∧
        m'.entityPoolFree = m.entityPoolFree ∧
        ∃ e', m'.getEnt eid = some e' ∧ e'.alive = false ∧
          e'.numStateComponents = e.numStateComponents) ∧
    (∀ (fuel : Nat) (m : EntityManager) (eid : Nat) (S : CompType) (e : EMEntity),
      m.getEnt eid = some e → (jsIndexOf m.entities eid == -1) = false →
      S.isSystemStateComponent = true → e.componentTypes = [S] → e.alive = false →
      e.numStateComponents = 1 →
      ∃ m', entityRemoveComponent (fuel + 3) m eid S (some true) = .ok m' ∧
        m'.entities = m.entities ∧
        m'.entitiesToRemove = m.entitiesToRemove ++ [eid] ∧
        m'.entityPoolFree = m.entityPoolFree) :=
  ⟨disposeEntity_ghost_persists, ghost_completion_deferred⟩

/-- An alive entity carrying the system-state component `S` and the plain
component `A`, about to be disposed. -/
def ghostEntW : EMEntity :=
  { id := 1, alive := true, componentTypes := [cS, Ecsy.cA],
    components := [("S", some 5), ("A", some 7)],
    componentsToRemove := [], componentTypesToRemove := [], numStateComponents := 1 }

/-- A manager holding only `ghostEntW`. -/
def ghostMgrW : EntityManager :=
  { entities := [1], entityData := [(1, ghostEntW)], entitiesToRemove := [],
    entitiesWithComponentsToRemove := [], entityPoolFree := [], releasedComponents := [],
    componentCounts := [("S", 1), ("A", 1)], queries := [], fired := 0 }

/-- C4 witness: both parts of the ghost rule at concrete managers. -/
theorem systemState_ghost_rule_witness :
    (ghostMgrW.getEnt 1 = some ghostEntW ∧
     (jsIndexOf ghostMgrW.entities 1 == -1) = false ∧
     (ghostEntW.numStateComponents == 0) = false ∧
     ghostEntW.componentTypes.length + 2 ≤ 4 ∧
     ∃ m', disposeEntity (4 + 1) ghostMgrW 1 none = .ok m' ∧
       m'.entities = ghostMgrW.entities ∧ m'.entitiesToRemove = ghostMgrW.entitiesToRemove ∧
       m'.entityPoolFree = ghostMgrW.entityPoolFree ∧
       ∃ e', m'.getEnt 1 = some e' ∧ e'.alive = false ∧
         e'.numStateComponents = ghostEntW.numStateComponents) ∧
    (ghostMgr.getEnt 1 = some ghostEnt ∧
     (jsIndexOf ghostMgr.entities 1 == -1) = false ∧
     cS.isSystemStateComponent = true ∧ ghostEnt.componentTypes = [cS] ∧
     ghostEnt.alive = false ∧ ghostEnt.numStateComponents = 1 ∧
     ∃ m', entityRemoveComponent (100 + 3) ghostMgr 1 cS (some true) = .ok m' ∧
       m'.entities = ghostMgr.entities ∧
       m'.entitiesToRemove = ghostMgr.entitiesToRemove ++ [1] ∧
       m'.entityPoolFree = ghostMgr.entityPoolFree) :=
  ⟨⟨by decide, by decide, by decide, by decide,
    systemState_ghost_rule.1 4 ghostMgrW 1 none ghostEntW (by decide) (by decide)
      (by decide) (by decide)⟩,
   ⟨by decide, by decide, by decide, by decide, by decide, by decide,
    systemState_ghost_rule.2 100 ghostMgr 1 cS ghostEnt (by decide) (by decide)
      (by decide) (by decide) (by decide) (by decide)⟩⟩

end EcsyEM

namespace Ecsy

/-! ### C10: `Entity.dispose(true)` leaves `alive === true` -/

/-- Forget the `queries` back-reference list of an entity: the part of an
entity that `Query.removeEntity` leaves untouched. -/
def Entity.sansQueries (e : Entity) : Entity := { e with queries := [] }

theorem mem_jsSpliceOne {α : Type} {x : α} {l : List α} {s : Int}
    (h : x ∈ jsSpliceOne l s) : x ∈ l := by
  unfold jsSpliceOne at h
  rcases List.mem_append.mp h with h1 | h1
  · exact List.take_subset _ _ h1
  · exact List.drop_subset _ _ h1

theorem jsIndexOf_eq_neg_one {α : Type} [DecidableEq α] {l : List α} {x : α} (h : x ∉ l) :
    jsIndexOf l x = -1 := by
  unfold jsIndexOf
  have hf : l.findIdx? (fun y => decide (y = x)) = none := by
    rw [List.findIdx?_eq_none_iff]
    intro y hy
    simp only [decide_eq_false_iff_not]
    intro hyx
    exact h (hyx ▸ hy)
  rw [hf]

theorem jsIndexOf_mem_beq {α : Type} [DecidableEq α] {l : List α} {x : α} (h : x ∈ l) :
    (jsIndexOf l x == -1) = false := by
  unfold jsIndexOf
  cases hf : l.findIdx? (fun y => decide (y = x)) with
  | none =>
    exfalso
    have := List.findIdx?_eq_none_iff.mp hf x h
    simp at this
  | some i =>
    simp only [beq_eq_false_iff_ne, ne_eq]
    omega

theorem jsSpliceOne_natCast {α : Type} (l : List α) (n : Nat) :
    jsSpliceOne l (n : Int) = l.take (min n l.length) ++ l.drop (min n l.length + 1) := by
  unfold jsSpliceOne
  have h1 : ¬ ((n : Int) < 0) := by omega
  rw [if_neg h1]
  simp

theorem jsSpliceOne_zero {α : Type} (a : α) (t : List α) :
    jsSpliceOne (a :: t) ((0 : Nat) : Int) = t := by
  rw [jsSpliceOne_natCast]
  simp

theorem jsSpliceOne_cons_succ {α : Type} (a : α) (t : List α) (i : Nat) :
    jsSpliceOne (a :: t) (((i + 1 : Nat) : Int)) = a :: jsSpliceOne t ((i : Nat) : Int) := by
  rw [jsSpliceOne_natCast, jsSpliceOne_natCast]
  simp only [List.length_cons, Nat.succ_min_succ, List.take_succ_cons, List.drop_succ_cons,
    List.cons_append]

theorem jsSpliceOne_indexOf_erase {α : Type} [DecidableEq α] :
    ∀ (l : List α) (x : α), x ∈ l → jsSpliceOne l (jsIndexOf l x) = l.erase x := by
  intro l
  induction l with
  | nil => intro x h; cases h
  | cons a t ih =>
    intro x h
    by_cases hax : a = x
    · subst hax
      have h0 : jsIndexOf (a :: t) a = ((0 : Nat) : Int) := by
        unfold jsIndexOf
        rw [List.findIdx?_cons]
        simp
      rw [h0, jsSpliceOne_zero, List.erase_cons_head]
    · have hxt : x ∈ t := (List.mem_cons.mp h).resolve_left (fun hh => hax hh.symm)
      cases hfind : t.findIdx? (fun y => decide (y = x)) with
      | none =>
        exfalso
        have := List.findIdx?_eq_none_iff.mp hfind x hxt
        simp at this
      | some i =>
        have hidx : jsIndexOf (a :: t) x = (((i + 1 : Nat) : Int)) := by
          unfold jsIndexOf
          rw [List.findIdx?_cons]
          simp only [decide_eq_true_eq, hax, if_false, List.findIdx?_succ, hfind,
            Option.map_some']
        have hidx2 : jsIndexOf t x = ((i : Nat) : Int) := by
          unfold jsIndexOf
          rw [hfind]
        rw [hidx, jsSpliceOne_cons_succ, ← hidx2, ih x hxt]
        rw [List.erase_cons_tail]
        simp [hax]

theorem mem_assocSet {α β : Type} [DecidableEq α] {l : List (α × β)} {k : α} {v : β}
    {p : α × β} (h : p ∈ assocSet l k v) : p = (k, v) ∨ p ∈ l := by
  unfold assocSet at h
  obtain ⟨q, hq, hqe⟩ := List.mem_map.mp h
  by_cases hk : (q.1 == k) = true
  · left
    have hqk : q.1 = k := by simpa using hk
    rw [if_pos hk] at hqe
    rw [← hqe, hqk]
  · right
    have hk0 : (q.1 == k) = false := by simpa using hk
    rw [hk0] at hqe
    simp only [Bool.false_eq_true, if_false] at hqe
    rw [← hqe]
    exact hq

theorem keys_assocSet {α β : Type} [DecidableEq α] (l : List (α × β)) (k : α) (v : β) :
    (assocSet l k v).map Prod.fst = l.map Prod.fst := by
  unfold assocSet
  rw [List.map_map]
  apply List.map_congr_left
  intro p _
  by_cases h : (p.1 == k) = true <;> simp [Function.comp, h]

theorem assocGet_mem {α β : Type} [DecidableEq α] {l : List (α × β)} {k : α} {v : β}
    (h : assocGet l k = some v) : (k, v) ∈ l := by
  unfold assocGet at h
  cases hf : l.find? (fun p => p.1 == k) with
  | none => rw [hf] at h; cases h
  | some p =>
    rw [hf] at h
    injection h with h
    have hp := List.mem_of_find?_eq_some hf
    have hk : p.1 = k := by simpa using List.find?_some hf
    have hpe : p = (k, v) := by
      rw [← hk, ← h]
    rw [← hpe]
    exact hp

theorem assocGet_of_mem_nodup {α β : Type} [DecidableEq α] :
    ∀ {l : List (α × β)}, (l.map Prod.fst).Nodup → ∀ {p : α × β}, p ∈ l →
      assocGet l p.1 = some p.2 := by
  intro l
  induction l with
  | nil => intro _ p hp; cases hp
  | cons q t ih =>
    intro hnd p hp
    rw [List.map_cons, List.nodup_cons] at hnd
    cases hp with
    | head => rw [assocGet_cons]; simp
    | tail _ hp =>
      rw [assocGet_cons]
      have hne : (q.1 == p.1) = false := by
        simp only [beq_eq_false_iff_ne, ne_eq]
        intro hq
        exact hnd.1 (hq ▸ List.mem_map_of_mem Prod.fst hp)
      rw [hne]
      simp only [Bool.false_eq_true, if_false]
      exact ih hnd.2 hp

theorem assocGet_eq_none_forall {α β : Type} [DecidableEq α] {l : List (α × β)} {k : α}
    (h : assocGet l k = none) : ∀ p ∈ l, (p.1 == k) = false := by
  unfold assocGet at h
  cases hf : l.find? (fun p => p.1 == k) with
  | some p => rw [hf] at h; cases h
  | none =>
    intro p hp
    have := List.find?_eq_none.mp hf p hp
    simpa using this

/-- The body of the `this.queries` loop of `World.onDisposeEntity`, run for
one indexed query key. -/
def disposeStep (eid : Nat) (w : World) (k : String) : World :=
  match w.getEnt eid with
  | none => w
  | some e => if hasElem e.queries k then w.queryRemoveEntity k eid else w

theorem onDisposeEntity_eq_foldl (w : World) (eid : Nat) :
    w.onDisposeEntity eid = (w.queries.map (fun p => p.1)).foldl (disposeStep eid) w := rfl

/-- What removing an entity from queries can never change: the uuid index,
the entity pool, the uuid counter, every disposed-instance record, and
every entity up to its `queries` back-reference list. -/
def qFrame (w w' : World) : Prop :=
  w'.entitiesByUUID = w.entitiesByUUID ∧
  w'.entityPoolFree = w.entityPoolFree ∧
  w'.nextUuidN = w.nextUuidN ∧
  w'.disposedInstances = w.disposedInstances ∧
  ∀ i, (w'.getEnt i).map Entity.sansQueries = (w.getEnt i).map Entity.sansQueries

theorem qFrame_refl (w : World) : qFrame w w := ⟨rfl, rfl, rfl, rfl, fun _ => rfl⟩

theorem qFrame_trans {a b c : World} (h1 : qFrame a b) (h2 : qFrame b c) : qFrame a c :=
  ⟨h2.1.trans h1.1, h2.2.1.trans h1.2.1, h2.2.2.1.trans h1.2.2.1,
   h2.2.2.2.1.trans h1.2.2.2.1, fun i => (h2.2.2.2.2 i).trans (h1.2.2.2.2 i)⟩

theorem queryRemoveEntity_qFrame (w : World) (k : String) (x : Nat) :
    qFrame w (w.queryRemoveEntity k x) := by
  unfold World.queryRemoveEntity
  cases hq : w.getQ k with
  | none => exact qFrame_refl w
  | some q =>
    simp only
    by_cases hidx : (jsIndexOf q.entities x == -1) = true
    · rw [if_pos hidx]
      exact qFrame_refl w
    · rw [if_neg hidx]
      cases hge : w.getEnt x with
      | none =>
        have hge2 : (w.setQ k { q with entities := jsSpliceOne q.entities (jsIndexOf q.entities x), fired := q.fired + 1 }).getEnt x = none := hge
        rw [hge2]
        exact ⟨rfl, rfl, rfl, rfl, fun _ => rfl⟩
      | some e =>
        have hge2 : (w.setQ k { q with entities := jsSpliceOne q.entities (jsIndexOf q.entities x), fired := q.fired + 1 }).getEnt x = some e := hge
        rw [hge2]
        refine ⟨rfl, rfl, rfl, rfl, fun i => ?_⟩
        have hsome : (assocGet w.entityData x).isSome = true := by
          unfold World.getEnt at hge
          rw [hge]
          rfl
        by_cases hi : i = x
        · subst hi
          show (assocGet (assocSet w.entityData i _) i).map Entity.sansQueries
              = (assocGet w.entityData i).map Entity.sansQueries
          rw [assocGet_assocSet_self _ _ _ hsome]
          have hge3 : assocGet w.entityData i = some e := hge
          rw [hge3]
          rfl
        · show (assocGet (assocSet w.entityData x _) i).map Entity.sansQueries
              = (assocGet w.entityData i).map Entity.sansQueries
          rw [assocGet_assocSet_ne w.entityData x i _ hi]

theorem disposeStep_qFrame (eid : Nat) (w : World) (k : String) :
    qFrame w (disposeStep eid w k) := by
  unfold disposeStep
  cases w.getEnt eid with
  | none => exact qFrame_refl w
  | some e =>
    simp only
    by_cases h : hasElem e.queries k = true
    · rw [if_pos h]
      exact queryRemoveEntity_qFrame w k eid
    · rw [if_neg h]
      exact qFrame_refl w

theorem foldl_disposeStep_qFrame (eid : Nat) :
    ∀ (ks : List String) (w : World), qFrame w (ks.foldl (disposeStep eid) w) := by
  intro ks
  induction ks with
  | nil => intro w; exact qFrame_refl w
  | cons k t ih =>
    intro w
    rw [List.foldl_cons]
    exact qFrame_trans (disposeStep_qFrame eid w k) (ih (disposeStep eid w k))

theorem disposeQueriesLoop_qFrame (eid : Nat) :
    ∀ (fuel i : Nat) (w : World), qFrame w (World.disposeQueriesLoop eid i fuel w) := by
  intro fuel
  induction fuel with
  | zero => intro i w; exact qFrame_refl w
  | succ f ih =>
    intro i w
    unfold World.disposeQueriesLoop
    cases w.getEnt eid with
    | none => exact qFrame_refl w
    | some e =>
      simp only
      by_cases h : i < e.queries.length
      · rw [dif_pos h]
        exact qFrame_trans (queryRemoveEntity_qFrame _ _ _) (ih _ _)
      · rw [dif_neg h]
        exact qFrame_refl w

/-- No indexed query's result list contains the entity. -/
def noGhost (eid : Nat) (w : World) : Prop := ∀ p ∈ w.queries, eid ∉ p.2.entities

theorem queryRemoveEntity_noGhost (w : World) (k : String) (x eid : Nat)
    (h : noGhost eid w) : noGhost eid (w.queryRemoveEntity k x) := by
  unfold World.queryRemoveEntity
  cases hq : w.getQ k with
  | none => exact h
  | some q =>
    simp only
    by_cases hidx : (jsIndexOf q.entities x == -1) = true
    · rw [if_pos hidx]
      exact h
    · rw [if_neg hidx]
      have hmain : noGhost eid
          (w.setQ k { q with entities := jsSpliceOne q.entities (jsIndexOf q.entities x), fired := q.fired + 1 }) := by
        intro p hp
        rcases mem_assocSet hp with hpe | hp2
        · rw [hpe]
          intro hmem
          exact h (k, q) (assocGet_mem hq) (mem_jsSpliceOne hmem)
        · exact h p hp2
      cases (w.setQ k { q with entities := jsSpliceOne q.entities (jsIndexOf q.entities x), fired := q.fired + 1 }).getEnt x with
      | none => exact hmain
      | some e => exact fun p hp => hmain p hp

theorem disposeQueriesLoop_noGhost (eid x : Nat) :
    ∀ (fuel i : Nat) (w : World), noGhost x w →
      noGhost x (World.disposeQueriesLoop eid i fuel w) := by
  intro fuel
  induction fuel with
  | zero => intro i w h; exact h
  | succ f ih =>
    intro i w h
    unfold World.disposeQueriesLoop
    cases w.getEnt eid with
    | none => exact h
    | some e =>
      simp only
      by_cases hlt : i < e.queries.length
      · rw [dif_pos hlt]
        exact ih _ _ (queryRemoveEntity_noGhost _ _ _ _ h)
      · rw [dif_neg hlt]
        exact h

theorem disposeFold_clears (eid : Nat) : ∀ (ks : List String) (w : World) (e : Entity),
    w.getEnt eid = some e →
    (w.queries.map Prod.fst).Nodup →
    (∀ p ∈ w.queries, p.2.entities.Nodup) →
    (∀ p ∈ w.queries, eid ∈ p.2.entities → p.1 ∈ e.queries ∧ p.1 ∈ ks) →
    noGhost eid (ks.foldl (disposeStep eid) w) := by
  intro ks
  induction ks with
  | nil =>
    intro w e hge hkeys hnd hinv p hp hmem
    exact absurd ((hinv p hp hmem).2) (List.not_mem_nil _)
  | cons k t ih =>
    intro w e hge hkeys hnd hinv
    rw [List.foldl_cons]
    by_cases hqk : hasElem e.queries k = true
    · have hstep : disposeStep eid w k = w.queryRemoveEntity k eid := by
        unfold disposeStep
        rw [hge]
        simp only [hqk, if_true]
      rw [hstep]
      cases hq : w.getQ k with
      | none =>
        have hqre : w.queryRemoveEntity k eid = w := by
          unfold World.queryRemoveEntity
          rw [hq]
        rw [hqre]
        apply ih w e hge hkeys hnd
        intro p hp hmem
        obtain ⟨h1, h2⟩ := hinv p hp hmem
        refine ⟨h1, ?_⟩
        cases List.mem_cons.mp h2 with
        | inl hpk =>
          exfalso
          have hz := assocGet_eq_none_forall (l := w.queries) (k := k) hq p hp
          rw [hpk] at hz
          simp at hz
        | inr hh => exact hh
      | some q =>
        by_cases hidx : (jsIndexOf q.entities eid == -1) = true
        · have hqre : w.queryRemoveEntity k eid = w := by
            unfold World.queryRemoveEntity
            rw [hq]
            simp only
            rw [if_pos hidx]
          rw [hqre]
          apply ih w e hge hkeys hnd
          intro p hp hmem
          obtain ⟨h1, h2⟩ := hinv p hp hmem
          refine ⟨h1, ?_⟩
          cases List.mem_cons.mp h2 with
          | inl hpk =>
            exfalso
            have hpg : assocGet w.queries p.1 = some p.2 := assocGet_of_mem_nodup hkeys hp
            rw [hpk] at hpg
            have hq2 : assocGet w.queries k = some q := hq
            rw [hq2] at hpg
            injection hpg with hpq
            rw [← hpq] at hmem
            rw [jsIndexOf_mem_beq hmem] at hidx
            cases hidx
          | inr hh => exact hh
        · have heid_mem : eid ∈ q.entities := by
            by_contra hnm
            rw [jsIndexOf_eq_neg_one hnm] at hidx
            simp at hidx
          have hkq : (k, q) ∈ w.queries := assocGet_mem hq
          have hk_in_e : k ∈ e.queries := by simpa [hasElem] using hqk
          have hge2 : (w.setQ k { q with entities := jsSpliceOne q.entities (jsIndexOf q.entities eid), fired := q.fired + 1 }).getEnt eid = some e := hge
          have hsome : (assocGet w.entityData eid).isSome = true := by
            unfold World.getEnt at hge
            rw [hge]
            rfl
          have hqsome : (assocGet w.queries k).isSome = true := by
            have hq2 : assocGet w.queries k = some q := hq
            rw [hq2]
            rfl
          have hqre : w.queryRemoveEntity k eid
              = (w.setQ k { q with entities := jsSpliceOne q.entities (jsIndexOf q.entities eid), fired := q.fired + 1 }).setEnt eid
                  { e with queries := jsSpliceOne e.queries (jsIndexOf e.queries k) } := by
            unfold World.queryRemoveEntity
            rw [hq]
            simp only
            rw [if_neg hidx, hge2]
          rw [hqre]
          apply ih _ { e with queries := jsSpliceOne e.queries (jsIndexOf e.queries k) }
          · show assocGet (assocSet w.entityData eid _) eid = some _
            rw [assocGet_assocSet_self _ _ _ hsome]
          · show ((assocSet w.queries k _).map Prod.fst).Nodup
            rw [keys_assocSet]
            exact hkeys
          · intro p hp
            rcases mem_assocSet hp with hpe | hp2
            · rw [hpe]
              show (jsSpliceOne q.entities (jsIndexOf q.entities eid)).Nodup
              rw [jsSpliceOne_indexOf_erase q.entities eid heid_mem]
              exact (hnd (k, q) hkq).erase eid
            · exact hnd p hp2
          · intro p hp hmem
            by_cases hpk : p.1 = k
            · exfalso
              have hkeys2 : ((assocSet w.queries k { q with entities := jsSpliceOne q.entities (jsIndexOf q.entities eid), fired := q.fired + 1 }).map Prod.fst).Nodup := by
                rw [keys_assocSet]
                exact hkeys
              have hpg := assocGet_of_mem_nodup hkeys2 hp
              rw [hpk, assocGet_assocSet_self _ _ _ hqsome] at hpg
              injection hpg with hpq
              rw [← hpq] at hmem
              have hmem2 : eid ∈ jsSpliceOne q.entities (jsIndexOf q.entities eid) := hmem
              rw [jsSpliceOne_indexOf_erase q.entities eid heid_mem] at hmem2
              exact (hnd (k, q) hkq).not_mem_erase hmem2
            · rcases mem_assocSet hp with hpe | hp2
              · exact absurd (congrArg Prod.fst hpe) hpk
              · obtain ⟨h1, h2⟩ := hinv p hp2 hmem
                refine ⟨?_, ?_⟩
                · show p.1 ∈ jsSpliceOne e.queries (jsIndexOf e.queries k)
                  rw [jsSpliceOne_indexOf_erase e.queries k hk_in_e]
                  exact (List.mem_erase_of_ne hpk).mpr h1
                · cases List.mem_cons.mp h2 with
                  | inl hpk2 => exact absurd hpk2 hpk
                  | inr hh => exact hh
    · have hstep : disposeStep eid w k = w := by
        unfold disposeStep
        rw [hge]
        simp only
        rw [if_neg hqk]
      rw [hstep]
      apply ih w e hge hkeys hnd
      intro p hp hmem
      obtain ⟨h1, h2⟩ := hinv p hp hmem
      refine ⟨h1, ?_⟩
      cases List.mem_cons.mp h2 with
      | inl hpk =>
        exfalso
        apply hqk
        rw [← hpk]
        simpa [hasElem] using h1
      | inr hh => exact hh

/-- C10: immediately after `Entity.dispose(true)` completes on a live
pooled entity, the entity reports `alive = true` - even though it has been
removed from every indexed query, its live component instances have all
been disposed, its uuid has been regenerated, its component collections
are empty (so `hasComponent` is `false` for every class), and it has been
released to the entity pool.  The hypotheses are the world invariants the
API maintains: query keys index distinct queries, query result lists are
duplicate-free, every query holding the entity is back-referenced in
`entity.queries`, and the regenerated uuid is fresh for the uuid index. -/
theorem entity_dispose_immediate_alive (w : World) (eid : Nat) (e : Entity)
    (hge : w.getEnt eid = some e)
    (halive : e.alive = true)
    (hpool : e.hasPool = true)
    (hkeys : (w.queries.map Prod.fst).Nodup)
    (hnd : ∀ p ∈ w.queries, p.2.entities.Nodup)
    (hcoh : ∀ p ∈ w.queries, eid ∈ p.2.entities → p.1 ∈ e.queries)
    (hfresh : ∀ p ∈ w.entitiesByUUID, p.1 ≠ w.freshUuid) :
    ∃ e', (w.dispose eid true).getEnt eid = some e' ∧
      e'.alive = true ∧
      e'.componentTypes = [] ∧ e'.components = [] ∧
      e'.componentsToRemove = [] ∧ e'.componentTypesToRemove = [] ∧
      (∀ C ir, e'.hasComponent C ir = false) ∧
      e'.uuid = w.freshUuid ∧
      eid ∈ (w.dispose eid true).entityPoolFree ∧
      (w.dispose eid true).disposedInstances
        = w.disposedInstances ++ e.components.filterMap (fun p => p.2) ∧
      ∀ p ∈ (w.dispose eid true).queries, eid ∉ p.2.entities := by
  have hframeA : qFrame w (w.onDisposeEntity eid) := by
    rw [onDisposeEntity_eq_foldl]
    exact foldl_disposeStep_qFrame eid _ w
  have hmapA := hframeA.2.2.2.2 eid
  rw [hge, Option.map_some'] at hmapA
  obtain ⟨e1, hgeA, hsans1⟩ := Option.map_eq_some'.mp hmapA
  have hnoA : noGhost eid (w.onDisposeEntity eid) := by
    rw [onDisposeEntity_eq_foldl]
    exact disposeFold_clears eid (w.queries.map (fun p => p.1)) w e hge hkeys hnd
      (fun p hp hm => ⟨hcoh p hp hm, List.mem_map_of_mem _ hp⟩)
  have hsomeA : (assocGet (w.onDisposeEntity eid).entityData eid).isSome = true := by
    have hh : assocGet (w.onDisposeEntity eid).entityData eid = some e1 := hgeA
    rw [hh]
    rfl
  have hfuA : (w.onDisposeEntity eid).freshUuid = w.freshUuid := by
    unfold World.freshUuid
    rw [hframeA.2.2.1]
  unfold World.dispose
  rw [hge]
  simp only [halive, if_true]
  rw [hgeA]
  simp only [Option.getD_some]
  rw [hfuA]
  simp only [World.setEnt, World.getEnt]
  rw [assocGet_assocSet_self _ _ _ hsomeA]
  simp only [Option.getD_some]
  obtain ⟨eB, heB⟩ : ∃ x : Entity, x =
      { id := e1.id, uuid := w.freshUuid,
        componentTypes := e1.componentTypes, components := e1.components,
        componentsToRemove := e1.componentsToRemove, queries := e1.queries,
        componentTypesToRemove := e1.componentTypesToRemove, alive := true,
        numSystemStateComponents := e1.numSystemStateComponents, hasPool := e1.hasPool } :=
    ⟨_, rfl⟩
  rw [← heB]
  obtain ⟨wC, hwC⟩ : ∃ x : World, x =
      { entities := (w.onDisposeEntity eid).entities,
        entityData := assocSet (w.onDisposeEntity eid).entityData eid eB,
        entitiesByUUID := (w.onDisposeEntity eid).entitiesByUUID,
        entitiesWithComponentsToRemove := (w.onDisposeEntity eid).entitiesWithComponentsToRemove,
        entitiesToRemove := (w.onDisposeEntity eid).entitiesToRemove,
        registeredComponents := (w.onDisposeEntity eid).registeredComponents,
        componentCounts := (w.onDisposeEntity eid).componentCounts,
        queries := (w.onDisposeEntity eid).queries,
        entityPoolFree := (w.onDisposeEntity eid).entityPoolFree,
        nextInstId := (w.onDisposeEntity eid).nextInstId,
        nextQid := (w.onDisposeEntity eid).nextQid,
        nextUuidN := (w.onDisposeEntity eid).nextUuidN + 1,
        disposedInstances := (w.onDisposeEntity eid).disposedInstances } := ⟨_, rfl⟩
  rw [← hwC]
  have hgeC : wC.getEnt eid = some eB := by
    rw [hwC]
    show assocGet (assocSet (w.onDisposeEntity eid).entityData eid eB) eid = some eB
    rw [assocGet_assocSet_self _ _ _ hsomeA]
  obtain ⟨wD, hwD⟩ : ∃ x : World,
      x = World.disposeQueriesLoop eid 0 (e1.queries.length + 1) wC := ⟨_, rfl⟩
  rw [← hwD]
  have hframeD : qFrame wC wD := by
    rw [hwD]
    exact disposeQueriesLoop_qFrame eid (e1.queries.length + 1) 0 wC
  have hmapD := hframeD.2.2.2.2 eid
  rw [hgeC, Option.map_some'] at hmapD
  obtain ⟨e2, hgeD, hsans2⟩ := Option.map_eq_some'.mp hmapD
  have hgeD2 : assocGet wD.entityData eid = some e2 := hgeD
  rw [hgeD2]
  simp only
  have h2pool : e2.hasPool = true := by
    have a0 := congrArg Entity.hasPool hsans2
    have a1 : e2.hasPool = eB.hasPool := a0
    have b0 := congrArg Entity.hasPool hsans1
    have a3 : e1.hasPool = e.hasPool := b0
    have a2 : eB.hasPool = e1.hasPool := by rw [heB]
    rw [a1, a2, a3, hpool]
  have h2alive : e2.alive = true := by
    have a0 := congrArg Entity.alive hsans2
    have a1 : e2.alive = eB.alive := a0
    have a2 : eB.alive = true := by rw [heB]
    rw [a1, a2]
  have h2uuid : e2.uuid = w.freshUuid := by
    have a0 := congrArg Entity.uuid hsans2
    have a1 : e2.uuid = eB.uuid := a0
    have a2 : eB.uuid = w.freshUuid := by rw [heB]
    rw [a1, a2]
  have h2comp : e2.components = e.components := by
    have a0 := congrArg Entity.components hsans2
    have a1 : e2.components = eB.components := a0
    have b0 := congrArg Entity.components hsans1
    have a3 : e1.components = e.components := b0
    have a2 : eB.components = e1.components := by rw [heB]
    rw [a1, a2, a3]
  rw [if_pos h2pool]
  obtain ⟨e3, he3⟩ : ∃ x : Entity, x =
      { id := e2.id, uuid := e2.uuid, componentTypes := [], components := [],
        componentsToRemove := [], queries := [], componentTypesToRemove := [],
        alive := e2.alive, numSystemStateComponents := e2.numSystemStateComponents,
        hasPool := e2.hasPool } := ⟨_, rfl⟩
  rw [← he3]
  obtain ⟨wG, hwG⟩ : ∃ x : World, x =
      { entities := wD.entities, entityData := assocSet wD.entityData eid e3,
        entitiesByUUID := wD.entitiesByUUID,
        entitiesWithComponentsToRemove := wD.entitiesWithComponentsToRemove,
        entitiesToRemove := wD.entitiesToRemove,
        registeredComponents := wD.registeredComponents,
        componentCounts := wD.componentCounts, queries := wD.queries,
        entityPoolFree := wD.entityPoolFree ++ [eid], nextInstId := wD.nextInstId,
        nextQid := wD.nextQid, nextUuidN := wD.nextUuidN,
        disposedInstances := wD.disposedInstances ++ List.filterMap (fun p => p.2) e2.components } :=
    ⟨_, rfl⟩
  rw [← hwG]
  have hsomeD : (assocGet wD.entityData eid).isSome = true := by
    rw [hgeD2]
    rfl
  have hgeG : wG.getEnt eid = some e3 := by
    rw [hwG]
    show assocGet (assocSet wD.entityData eid e3) eid = some e3
    rw [assocGet_assocSet_self _ _ _ hsomeD]
  have hbyD : wD.entitiesByUUID = w.entitiesByUUID := by
    have c1 : wD.entitiesByUUID = wC.entitiesByUUID := hframeD.1
    have c2 : wC.entitiesByUUID = (w.onDisposeEntity eid).entitiesByUUID := by rw [hwC]
    rw [c1, c2, hframeA.1]
  have he3uuid : e3.uuid = w.freshUuid := by
    rw [he3]
    exact h2uuid
  have hfind : wG.entitiesByUUID.find? (fun p => p.1 == e3.uuid) = none := by
    have hby : wG.entitiesByUUID = w.entitiesByUUID := by
      rw [hwG]
      show wD.entitiesByUUID = w.entitiesByUUID
      exact hbyD
    rw [hby, he3uuid]
    apply List.find?_eq_none.mpr
    intro p hp
    simpa using hfresh p hp
  have hdisposed : wG.onEntityDisposed eid = wG := by
    unfold World.onEntityDisposed
    rw [hgeG]
    simp only
    rw [hfind]
    simp only [Option.isNone_none, if_true]
  rw [hdisposed]
  have hnoC : noGhost eid wC := by
    intro p hp
    apply hnoA p
    rw [hwC] at hp
    exact hp
  have hnoD : noGhost eid wD := by
    rw [hwD]
    exact disposeQueriesLoop_noGhost eid eid (e1.queries.length + 1) 0 wC hnoC
  have hdispD : wD.disposedInstances = w.disposedInstances := by
    have c1 : wD.disposedInstances = wC.disposedInstances := hframeD.2.2.2.1
    have c2 : wC.disposedInstances = (w.onDisposeEntity eid).disposedInstances := by rw [hwC]
    rw [c1, c2, hframeA.2.2.2.1]
  refine ⟨e3, hgeG, ?_, ?_, ?_, ?_, ?_, ?_, he3uuid, ?_, ?_, ?_⟩
  · rw [he3]
    exact h2alive
  · rw [he3]
  · rw [he3]
  · rw [he3]
  · rw [he3]
  · intro C ir
    rw [he3]
    simp [Entity.hasComponent, Entity.hasRemovedComponent, hasElem]
  · rw [hwG]
    show eid ∈ wD.entityPoolFree ++ [eid]
    simp
  · rw [hwG]
    show wD.disposedInstances ++ List.filterMap (fun p => p.2) e2.components
        = w.disposedInstances ++ List.filterMap (fun p => p.2) e.components
    rw [hdispD, h2comp]
  · intro p hp
    apply hnoD p
    rw [hwG] at hp
    exact hp

/-- A live pooled entity holding component `A` and matched by the query
indexed under key `"A"`. -/
def twEntC10 : Entity :=
  { id := 1, uuid := "u1", componentTypes := [cA], components := [("A", some 7)],
    componentsToRemove := [], queries := ["A"], componentTypesToRemove := [],
    alive := true, numSystemStateComponents := 0, hasPool := true }

/-- The query holding `twEntC10`. -/
def twQC10 : Query :=
  { qid := 0, Components := [cA], NotComponents := [], entities := [1],
    reactive := false, key := "A", fired := 0 }

/-- A world holding only `twEntC10` and the query `twQC10`. -/
def twC10 : World :=
  { entities := [1], entityData := [(1, twEntC10)], entitiesByUUID := [],
    entitiesWithComponentsToRemove := [], entitiesToRemove := [],
    registeredComponents := ["A"], componentCounts := [("A", 1)],
    queries := [("A", twQC10)], entityPoolFree := [], nextInstId := 8, nextQid := 1,
    nextUuidN := 0, disposedInstances := [] }

/-- C10 witness: the dispose-immediately aftermath at a concrete world. -/
theorem entity_dispose_immediate_alive_witness :
    (twC10.getEnt 1 = some twEntC10 ∧ twEntC10.alive = true ∧ twEntC10.hasPool = true ∧
     (twC10.queries.map Prod.fst).Nodup ∧
     (∀ p ∈ twC10.queries, p.2.entities.Nodup) ∧
     (∀ p ∈ twC10.queries, (1 : Nat) ∈ p.2.entities → p.1 ∈ twEntC10.queries) ∧
     (∀ p ∈ twC10.entitiesByUUID, p.1 ≠ twC10.freshUuid)) ∧
    (∃ e', (twC10.dispose 1 true).getEnt 1 = some e' ∧
      e'.alive = true ∧
      e'.componentTypes = [] ∧ e'.components = [] ∧
      e'.componentsToRemove = [] ∧ e'.componentTypesToRemove = [] ∧
      (∀ C ir, e'.hasComponent C ir = false) ∧
      e'.uuid = twC10.freshUuid ∧
      1 ∈ (twC10.dispose 1 true).entityPoolFree ∧
      (twC10.dispose 1 true).disposedInstances
        = twC10.disposedInstances ++ twEntC10.components.filterMap (fun p => p.2) ∧
      ∀ p ∈ (twC10.dispose 1 true).queries, 1 ∉ p.2.entities) :=
  ⟨⟨by decide, by decide, by decide, by decide, by decide, by decide, by decide⟩,
   entity_dispose_immediate_alive twC10 1 twEntC10 (by decide) (by decide) (by decide)
     (by decide) (by decide) (by decide) (by decide)⟩

end Ecsy
